import Mathlib

/-!
Verification of the natural-language date resolver in `scripts/dates.py`.

The embedding works on calendar dates only: the source truncates the
reference instant to a date (line 73) before any computation, and every
subsequent operation is date-level.  Dates are carried on an unbounded
proleptic Gregorian calendar (year `Int`).  The bare `replace(year=...)`
calls, whose `ValueError` escapes `resolve`, model both validations of
Python `datetime`: the 1..9999 year range and the day-of-month check.
The `datetime` constructors that sit inside `try` blocks, whose failures
the source swallows, are modelled by the day-of-month check; their year
bound only matters beyond the calendar range the spec works in.  An
uncaught Python exception is modelled as `Except.error`; the structured
result dict of `resolve` is `Output`.
-/

namespace Dates

/-- `calendar.isleap` from the Python stdlib. -/
def isLeap (y : Int) : Bool :=
  y % 4 == 0 && (y % 100 != 0 || y % 400 == 0)

/-- `calendar.monthrange(y, m)[1]`: the number of days of month `m` in year `y`. -/
def monthLen (y : Int) (m : Nat) : Nat :=
  match m with
  | 1 => 31
  | 2 => if isLeap y then 29 else 28
  | 3 => 31
  | 4 => 30
  | 5 => 31
  | 6 => 30
  | 7 => 31
  | 8 => 31
  | 9 => 30
  | 10 => 31
  | 11 => 30
  | 12 => 31
  | _ => 0

/-- A calendar date, as carried by Python `datetime` after the time of day
is zeroed out. -/
structure Date where
  year : Int
  month : Nat
  day : Nat
deriving DecidableEq, Repr

/-- The validity check that the Python `datetime` constructor and `replace` perform
on the month and day fields (the 1..9999 year bound is outside the model). -/
def ValidDate (d : Date) : Prop :=
  1 ≤ d.month ∧ d.month ≤ 12 ∧ 1 ≤ d.day ∧ d.day ≤ monthLen d.year d.month

instance (d : Date) : Decidable (ValidDate d) :=
  inferInstanceAs (Decidable (1 ≤ d.month ∧ d.month ≤ 12 ∧ 1 ≤ d.day ∧ d.day ≤ monthLen d.year d.month))

/-- Days of the listed year that precede the first of the given month
(`datetime._days_before_month`). -/
def daysBeforeMonth (y : Int) (m : Nat) : Int :=
  (match m with
   | 1 => 0
   | 2 => 31
   | 3 => 59
   | 4 => 90
   | 5 => 120
   | 6 => 151
   | 7 => 181
   | 8 => 212
   | 9 => 243
   | 10 => 273
   | 11 => 304
   | 12 => 334
   | _ => 0)
  + (if 2 < m ∧ isLeap y then 1 else 0)

/-- Days before January 1 of year `y` counted from the epoch
(`datetime._days_before_year`, extended to all integer years; Python `//`
is floor division, which agrees with the `/` of `Int` for positive
divisors). -/
def daysBeforeYear (y : Int) : Int :=
  365 * (y - 1) + (y - 1) / 4 - (y - 1) / 100 + (y - 1) / 400

/-- Python `date.toordinal`: January 1 of year 1 is day 1. -/
def toOrdinal (d : Date) : Int :=
  daysBeforeYear d.year + daysBeforeMonth d.year d.month + d.day

/-- Python `date.weekday`: Monday is 0, Sunday is 6. -/
def weekday (d : Date) : Int :=
  (toOrdinal d + 6) % 7

/-- The day after `d` (the single step of `timedelta(days=1)` addition). -/
def succD (d : Date) : Date :=
  if d.day < monthLen d.year d.month then ⟨d.year, d.month, d.day + 1⟩
  else if d.month < 12 then ⟨d.year, d.month + 1, 1⟩
  else ⟨d.year + 1, 1, 1⟩

/-- The day before `d`. -/
def predD (d : Date) : Date :=
  if 1 < d.day then ⟨d.year, d.month, d.day - 1⟩
  else if 1 < d.month then ⟨d.year, d.month - 1, monthLen d.year (d.month - 1)⟩
  else ⟨d.year - 1, 12, 31⟩

def succN (d : Date) : Nat → Date
  | 0 => d
  | n + 1 => succN (succD d) n

def predN (d : Date) : Nat → Date
  | 0 => d
  | n + 1 => predN (predD d) n

/-- `d + timedelta(days = n)` for a signed day count. -/
def addDays (d : Date) (n : Int) : Date :=
  if 0 ≤ n then succN d n.toNat else predN d (-n).toNat

/-- `_next_weekday(weekday, ref, weeks_ahead)` from `dates.py` lines 41-46. -/
def nextWeekday (w : Int) (ref : Date) (weeksAhead : Int) : Date :=
  let daysAhead := w - weekday ref
  let daysAhead := if daysAhead ≤ 0 then daysAhead + 7 else daysAhead
  addDays ref (daysAhead + weeksAhead * 7)

/-- `_prev_weekday(weekday, ref, weeks_back)` from `dates.py` lines 49-54. -/
def prevWeekday (w : Int) (ref : Date) (weeksBack : Int) : Date :=
  let daysBack := weekday ref - w
  let daysBack := if daysBack ≤ 0 then daysBack + 7 else daysBack
  addDays ref (-(daysBack + weeksBack * 7))

/-- `_add_months(dt, months)` from `dates.py` lines 57-63.  Python `//` and
`%` are floor division, which agrees with the Euclidean `/` and `%` of
`Int` for the positive divisor 12. -/
def addMonths (dt : Date) (months : Int) : Date :=
  let month0 : Int := (dt.month : Int) - 1 + months
  let year := dt.year + month0 / 12
  let month := (month0 % 12 + 1).toNat
  ⟨year, month, min dt.day (monthLen year month)⟩

/-- Advance from `d` one day at a time while the day is a weekend day.
Fuel 7 always suffices (shown in `nextBiz_eq`); mirrors the inner loop of
the business-day grammar (lines 187-190) and of "next business day"
(lines 250-252). -/
def seekBiz : Nat → Date → Date
  | 0, d => d
  | n + 1, d => if weekday d < 5 then d else seekBiz n (addDays d 1)

/-- The first business day strictly after `d`. -/
def nextBiz (d : Date) : Date := seekBiz 7 (addDays d 1)

/-- The while loop of lines 186-190: add `n` business days to `d`, never
counting `d` itself. -/
def busAdd (d : Date) : Nat → Date
  | 0 => d
  | n + 1 => busAdd (nextBiz d) n

/-- `today.replace(year = y)`: Python `replace` re-validates the date and
raises `ValueError` either because the target year leaves the 1..9999
range `datetime` supports (checked first, as in CPython) or because the
day does not exist in the target year (Feb 29 mapped into a non-leap
year). -/
def replaceYear (d : Date) (y : Int) : Except String Date :=
  if 1 ≤ y ∧ y ≤ 9999 then
    if ValidDate ⟨y, d.month, d.day⟩ then .ok ⟨y, d.month, d.day⟩
    else .error "ValueError: day is out of range for month"
  else .error s!"ValueError: year {y} is out of range"

/-- The `datetime(year, month, day)` constructor as used inside `try`
blocks: a validation failure is caught at once, so it is an `Option`. -/
def mkDate (y : Int) (m d : Nat) : Option Date :=
  if ValidDate ⟨y, m, d⟩ then some ⟨y, m, d⟩ else none

/-- Chronological comparison of Python `date` values. -/
def dateLt (a b : Date) : Prop := toOrdinal a < toOrdinal b

instance (a b : Date) : Decidable (dateLt a b) :=
  inferInstanceAs (Decidable (toOrdinal a < toOrdinal b))

/-- `strftime("%A")`. -/
def dayName (w : Int) : String :=
  if w = 0 then "Monday"
  else if w = 1 then "Tuesday"
  else if w = 2 then "Wednesday"
  else if w = 3 then "Thursday"
  else if w = 4 then "Friday"
  else if w = 5 then "Saturday"
  else "Sunday"

/-- The name/number pairs of the `WEEKDAYS` table, for quantifying over
every recognised weekday name. -/
def wdTable : List (String × Int) :=
  [("monday", 0), ("tuesday", 1), ("wednesday", 2), ("thursday", 3),
   ("friday", 4), ("saturday", 5), ("sunday", 6),
   ("mon", 0), ("tue", 1), ("tues", 1), ("wed", 2), ("thu", 3), ("thur", 3),
   ("thurs", 3), ("fri", 4), ("sat", 5), ("sun", 6)]

/-! ## Character classes and string helpers (ASCII fragment of Python str) -/

/-- Python `\s` on ASCII input. -/
def pyIsSpace (c : Char) : Bool :=
  c.toNat = 32 || (9 ≤ c.toNat && c.toNat ≤ 13)

/-- Python `\d`. -/
def isDigitC (c : Char) : Bool :=
  48 ≤ c.toNat && c.toNat ≤ 57

/-- Python `\w` on ASCII input: letters, digits and underscore. -/
def isWordC (c : Char) : Bool :=
  (97 ≤ c.toNat && c.toNat ≤ 122) || (65 ≤ c.toNat && c.toNat ≤ 90) ||
  isDigitC c || c.toNat = 95

def lowerChar (c : Char) : Char :=
  if 65 ≤ c.toNat ∧ c.toNat ≤ 90 then Char.ofNat (c.toNat + 32) else c

/-- `str.lower()` (ASCII fragment). -/
def pyLower (l : List Char) : List Char := l.map lowerChar

/-- `str.strip()`. -/
def pyStrip (l : List Char) : List Char :=
  ((l.dropWhile pyIsSpace).reverse.dropWhile pyIsSpace).reverse

/-- An apostrophe character, kept out of string literals. -/
def quoteC : String := String.mk [Char.ofNat 39]

/-- Consume a literal from the front of the input. -/
def eatLit : List Char → List Char → Option (List Char)
  | [], r => some r
  | _ :: _, [] => none
  | p :: ps, c :: r => if c = p then eatLit ps r else none

/-- `\s+`: require at least one whitespace character, consume the run. -/
def eatWs1 : List Char → Option (List Char)
  | [] => none
  | c :: r => if pyIsSpace c then some (r.dropWhile pyIsSpace) else none

/-- Try a list of literal alternatives in order, returning the matched one. -/
def eatAlt (pats : List (List Char)) (l : List Char) : Option (List Char × List Char) :=
  match pats with
  | [] => none
  | p :: ps =>
    match eatLit p l with
    | some r => some (p, r)
    | none => eatAlt ps l

def takeDigits (l : List Char) : List Char × List Char :=
  (l.takeWhile isDigitC, l.dropWhile isDigitC)

def takeWord (l : List Char) : List Char × List Char :=
  (l.takeWhile isWordC, l.dropWhile isWordC)

def digitsToNat (l : List Char) : Nat :=
  l.foldl (fun a c => 10 * a + (c.toNat - 48)) 0

/-- Consume exactly `n` digits. -/
def eatDigits : Nat → List Char → Option (List Char × List Char)
  | 0, l => some ([], l)
  | _ + 1, [] => none
  | n + 1, c :: r =>
    if isDigitC c then (eatDigits n r).map (fun p => (c :: p.1, p.2)) else none

/-- The effect of the backtracking in `(\w+?)s?`: the captured unit is the
maximal word with a trailing `s` (if any) given back to the `s?`. -/
def stripS (w : List Char) : List Char :=
  match w.getLast? with
  | some c => if c = 's' ∧ 2 ≤ w.length then w.dropLast else w
  | none => w

/-- The `WEEKDAYS` table (lines 23-29). -/
def wdLookup (s : String) : Option Int :=
  match s with
  | "monday" => some 0
  | "tuesday" => some 1
  | "wednesday" => some 2
  | "thursday" => some 3
  | "friday" => some 4
  | "saturday" => some 5
  | "sunday" => some 6
  | "mon" => some 0
  | "tue" => some 1
  | "tues" => some 1
  | "wed" => some 2
  | "thu" => some 3
  | "thur" => some 3
  | "thurs" => some 3
  | "fri" => some 4
  | "sat" => some 5
  | "sun" => some 6
  | _ => none

/-- The `MONTH_NAMES` table (lines 31-38). -/
def monthLookup (s : String) : Option Nat :=
  match s with
  | "january" => some 1
  | "february" => some 2
  | "march" => some 3
  | "april" => some 4
  | "may" => some 5
  | "june" => some 6
  | "july" => some 7
  | "august" => some 8
  | "september" => some 9
  | "october" => some 10
  | "november" => some 11
  | "december" => some 12
  | "jan" => some 1
  | "feb" => some 2
  | "mar" => some 3
  | "apr" => some 4
  | "jun" => some 6
  | "jul" => some 7
  | "aug" => some 8
  | "sep" => some 9
  | "sept" => some 9
  | "oct" => some 10
  | "nov" => some 11
  | "dec" => some 12
  | _ => none

/-- `str.title()` for a single lowercase word. -/
def titleWord (l : List Char) : String :=
  match l with
  | [] => ""
  | c :: r => String.mk (Char.ofNat (c.toNat - 32) :: r)

/-! ## The time-of-day suffix regex (line 77)

`\s+(?:at\s+\d{1,2}(?::\d{2})?\s*(?:am|pm)?|in\s+the\s+(?:morning|afternoon|evening)|morning|afternoon|evening|night)$`
matched with `re.search`, i.e. at the leftmost position from which the
match runs to the end of the string. -/

/-- The `at H[:MM][am|pm]` alternative, anchored to the end of the input. -/
def tsAt (l : List Char) : Bool :=
  match eatLit "at".data l with
  | none => false
  | some r =>
    match eatWs1 r with
    | none => false
    | some r2 =>
      let ds := r2.takeWhile isDigitC
      if ds.length = 0 || 3 ≤ ds.length then false
      else
        let r3 := r2.drop ds.length
        let r4 : Option (List Char) :=
          match r3 with
          | c :: rr =>
            if c = ':' then
              match eatDigits 2 rr with
              | some p => some p.2
              | none => none
            else some r3
          | [] => some r3
        match r4 with
        | none => false
        | some r5 =>
          let r6 := r5.dropWhile pyIsSpace
          r6 = [] || r6 = "am".data || r6 = "pm".data

/-- The `in the morning/afternoon/evening` alternative, anchored to the end. -/
def tsInThe (l : List Char) : Bool :=
  match eatLit "in".data l with
  | none => false
  | some r =>
    match eatWs1 r with
    | none => false
    | some r2 =>
      match eatLit "the".data r2 with
      | none => false
      | some r3 =>
        match eatWs1 r3 with
        | none => false
        | some r4 =>
          r4 = "morning".data || r4 = "afternoon".data || r4 = "evening".data

/-- The bare trailing-word alternatives. -/
def tsWordAlt (l : List Char) : Bool :=
  l = "morning".data || l = "afternoon".data || l = "evening".data || l = "night".data

/-- Does a match of the suffix pattern start exactly here and run to the end? -/
def tsSuffixAt (l : List Char) : Bool :=
  match l with
  | [] => false
  | c :: r =>
    pyIsSpace c &&
      (let r2 := r.dropWhile pyIsSpace
       tsAt r2 || tsInThe r2 || tsWordAlt r2)

/-- Leftmost-match search: returns the text before the match when one exists. -/
def findTS (acc : List Char) : List Char → Option (List Char)
  | [] => none
  | c :: r =>
    if tsSuffixAt (c :: r) then some acc.reverse else findTS (c :: acc) r

/-- Lines 78-80: detect the suffix, remove it, re-strip. -/
def stripTime (l : List Char) : List Char × Bool :=
  match findTS [] l with
  | none => (l, false)
  | some pre => (pyStrip pre, true)

/-! ## The pattern matcher chain (lines 85-302)

Each grammar is split into a pure parser for its regex and the semantic
action of its branch body.  A branch body that can raise (the bare
`replace(year=...)` calls at lines 177, 210, 229 and 244) returns
`Except String`; every other grammar is total. -/

/-- The `if`/`elif` cascade of fixed phrases, lines 86-128. -/
def fixedMatch (expr : List Char) (today : Date) : Option (Date × String) :=
  if expr = "today".data ∨ expr = "now".data then some (today, "today")
  else if expr = "tomorrow".data then some (addDays today 1, "tomorrow")
  else if expr = "yesterday".data then some (addDays today (-1), "yesterday")
  else if expr = "day after tomorrow".data then some (addDays today 2, "day after tomorrow")
  else if expr = "day before yesterday".data then some (addDays today (-2), "day before yesterday")
  else if expr = "end of week".data ∨ expr = "end of this week".data ∨ expr = "this weekend".data then
    let daysToSunday : Int := 6 - weekday today
    -- line 108-109 of the source: this guard re-assigns 0 to a value that
    -- is already 0, so it never changes the result (a dead store)
    let daysToSunday := if daysToSunday = 0 ∧ ¬ expr = "this weekend".data then 0 else daysToSunday
    some (addDays today daysToSunday, "end of this week (Sunday)")
  else if expr = "start of next week".data ∨ expr = "beginning of next week".data ∨ expr = "next week".data then
    some (addDays today (7 - weekday today), "start of next week (Monday)")
  else if expr = "end of month".data ∨ expr = "end of this month".data ∨ expr = "eom".data then
    some (⟨today.year, today.month, monthLen today.year today.month⟩, "end of this month")
  else if expr = "start of next month".data ∨ expr = "beginning of next month".data then
    some (addMonths ⟨today.year, today.month, 1⟩ 1, "start of next month")
  else if expr = "end of year".data ∨ expr = "end of this year".data ∨ expr = "eoy".data then
    some (⟨today.year, 12, 31⟩, "end of this year")
  else if expr = "start of next year".data ∨ expr = "beginning of next year".data then
    some (⟨today.year + 1, 1, 1⟩, "start of next year")
  else none

/-- Regex of line 132: `(next|this|last|previous)\s+(\w+)` via `re.match`. -/
def parse3 (expr : List Char) : Option (List Char × List Char) :=
  match eatAlt ["next".data, "this".data, "last".data, "previous".data] expr with
  | none => none
  | some (md, r1) =>
    match eatWs1 r1 with
    | none => none
    | some r2 =>
      let w := (takeWord r2).1
      if w = [] then none else some (md, w)

/-- Branch bodies of lines 133-156. -/
def p3 (expr : List Char) (today : Date) : Option (Date × String) :=
  match parse3 expr with
  | none => none
  | some (md, w) =>
    match wdLookup (String.mk w) with
    | some wd =>
      if md = "next".data ∨ md = "this".data then
        some (nextWeekday wd today 0, "next " ++ String.mk w)
      else if md = "last".data ∨ md = "previous".data then
        some (prevWeekday wd today 0, "last " ++ String.mk w)
      else none
    | none =>
      if w = "week".data then
        if md = "next".data then
          some (addDays today (7 - weekday today), "start of next week")
        else if md = "last".data ∨ md = "previous".data then
          some (addDays today (-(weekday today + 7)), "start of last week")
        else none
      else if w = "month".data then
        if md = "next".data then
          some (addMonths ⟨today.year, today.month, 1⟩ 1, "start of next month")
        else if md = "last".data ∨ md = "previous".data then
          some (addMonths ⟨today.year, today.month, 1⟩ (-1), "start of last month")
        else none
      else none

/-- Regex of line 160: `(\d+)\s+(\w+?)s?\s+from\s+(?:now|today)`. -/
def parse4 (expr : List Char) : Option (Nat × List Char) :=
  let (ds, r1) := takeDigits expr
  if ds = [] then none else
  match eatWs1 r1 with
  | none => none
  | some r2 =>
    let (w, r3) := takeWord r2
    if w = [] then none else
    match eatWs1 r3 with
    | none => none
    | some r4 =>
      match eatLit "from".data r4 with
      | none => none
      | some r5 =>
        match eatWs1 r5 with
        | none => none
        | some r6 =>
          if (eatLit "now".data r6).isSome ∨ (eatLit "today".data r6).isSome then
            some (digitsToNat ds, stripS w)
          else none

/-- Branch bodies of lines 161-178. -/
def p4 (expr : List Char) (today : Date) : Except String (Option (Date × String)) :=
  match parse4 expr with
  | none => .ok none
  | some (count, unit) =>
    let u := String.mk unit
    match wdLookup u with
    | some wd => .ok (some (nextWeekday wd today ((count : Int) - 1), s!"{count} {u}(s) from now"))
    | none =>
      if unit = "day".data then .ok (some (addDays today count, s!"{count} day(s) from now"))
      else if unit = "week".data then .ok (some (addDays today (7 * count), s!"{count} week(s) from now"))
      else if unit = "month".data then .ok (some (addMonths today count, s!"{count} month(s) from now"))
      else if unit = "year".data then
        match replaceYear today (today.year + count) with
        | .ok d => .ok (some (d, s!"{count} year(s) from now"))
        | .error e => .error e
      else .ok none

/-- The unit alternation of the regex on line 182. -/
def bizAlt (l : List Char) : Bool :=
  (match eatLit "business".data l with
   | some r =>
     (match eatWs1 r with
      | some r2 => (eatLit "day".data r2).isSome
      | none => false)
   | none => false) ||
  (eatLit "workday".data l).isSome ||
  (match eatLit "work".data l with
   | some r =>
     (match eatWs1 r with
      | some r2 => (eatLit "day".data r2).isSome
      | none => false)
   | none => false)

/-- Regex of line 182: `in\s+(\d+)\s+(?:business\s+days?|workdays?|work\s+days?)`. -/
def parse5 (expr : List Char) : Option Nat :=
  match eatLit "in".data expr with
  | none => none
  | some r1 =>
    match eatWs1 r1 with
    | none => none
    | some r2 =>
      let (ds, r3) := takeDigits r2
      if ds = [] then none else
      match eatWs1 r3 with
      | none => none
      | some r4 => if bizAlt r4 then some (digitsToNat ds) else none

/-- Branch body of lines 183-192. -/
def p5 (expr : List Char) (today : Date) : Option (Date × String) :=
  match parse5 expr with
  | none => none
  | some count => some (busAdd today count, s!"in {count} business day(s)")

/-- Regex of line 196: `in\s+(\d+)\s+(\w+?)s?$`. -/
def parse6 (expr : List Char) : Option (Nat × List Char) :=
  match eatLit "in".data expr with
  | none => none
  | some r1 =>
    match eatWs1 r1 with
    | none => none
    | some r2 =>
      let (ds, r3) := takeDigits r2
      if ds = [] then none else
      match eatWs1 r3 with
      | none => none
      | some r4 =>
        let (w, r5) := takeWord r4
        if w = [] ∨ ¬ r5 = [] then none else some (digitsToNat ds, stripS w)

/-- Branch bodies of lines 197-211. -/
def p6 (expr : List Char) (today : Date) : Except String (Option (Date × String)) :=
  match parse6 expr with
  | none => .ok none
  | some (count, unit) =>
    if unit = "day".data then .ok (some (addDays today count, s!"in {count} day(s)"))
    else if unit = "week".data then .ok (some (addDays today (7 * count), s!"in {count} week(s)"))
    else if unit = "month".data then .ok (some (addMonths today count, s!"in {count} month(s)"))
    else if unit = "year".data then
      match replaceYear today (today.year + count) with
      | .ok d => .ok (some (d, s!"in {count} year(s)"))
      | .error e => .error e
    else .ok none

/-- Regex of line 215: `(\d+)\s+(\w+?)s?\s+ago`. -/
def parse7 (expr : List Char) : Option (Nat × List Char) :=
  let (ds, r1) := takeDigits expr
  if ds = [] then none else
  match eatWs1 r1 with
  | none => none
  | some r2 =>
    let (w, r3) := takeWord r2
    if w = [] then none else
    match eatWs1 r3 with
    | none => none
    | some r4 =>
      if (eatLit "ago".data r4).isSome then some (digitsToNat ds, stripS w) else none

/-- Branch bodies of lines 216-230. -/
def p7 (expr : List Char) (today : Date) : Except String (Option (Date × String)) :=
  match parse7 expr with
  | none => .ok none
  | some (count, unit) =>
    if unit = "day".data then .ok (some (addDays today (-(count : Int)), s!"{count} day(s) ago"))
    else if unit = "week".data then .ok (some (addDays today (-(7 * (count : Int))), s!"{count} week(s) ago"))
    else if unit = "month".data then .ok (some (addMonths today (-(count : Int)), s!"{count} month(s) ago"))
    else if unit = "year".data then
      match replaceYear today (today.year - count) with
      | .ok d => .ok (some (d, s!"{count} year(s) ago"))
      | .error e => .error e
    else .ok none

/-- Regex of line 234: `an?\s+(\w+)\s+from\s+(?:now|today)`. -/
def parse8 (expr : List Char) : Option (List Char) :=
  match expr with
  | [] => none
  | c :: r =>
    if ¬ c = 'a' then none else
    let rest := match r with
      | c2 :: r2 => if c2 = 'n' then r2 else r
      | [] => r
    match eatWs1 rest with
    | none => none
    | some r2 =>
      let (w, r3) := takeWord r2
      if w = [] then none else
      match eatWs1 r3 with
      | none => none
      | some r4 =>
        match eatLit "from".data r4 with
        | none => none
        | some r5 =>
          match eatWs1 r5 with
          | none => none
          | some r6 =>
            if (eatLit "now".data r6).isSome ∨ (eatLit "today".data r6).isSome then some w
            else none

/-- Branch bodies of lines 235-245. -/
def p8 (expr : List Char) (today : Date) : Except String (Option (Date × String)) :=
  match parse8 expr with
  | none => .ok none
  | some unit =>
    if unit = "week".data then .ok (some (addDays today 7, "a week from now"))
    else if unit = "month".data then .ok (some (addMonths today 1, "a month from now"))
    else if unit = "year".data then
      match replaceYear today (today.year + 1) with
      | .ok d => .ok (some (d, "a year from now"))
      | .error e => .error e
    else .ok none

/-- Lines 248-254: `next weekday` / `next business day` / `next workday`. -/
def p9 (expr : List Char) (today : Date) : Option (Date × String) :=
  if expr = "next weekday".data ∨ expr = "next business day".data ∨ expr = "next workday".data then
    some (nextBiz today, "next business day")
  else none

/-- Lines 257-260: a bare weekday name. -/
def p10 (expr : List Char) (today : Date) : Option (Date × String) :=
  match wdLookup (String.mk expr) with
  | some wd => some (nextWeekday wd today 0, "next " ++ String.mk expr)
  | none => none

/-- The optional year tail `(?:\s*,?\s*(\d{4}))?$` of the month/day grammars. -/
def yearEnd (l : List Char) : Option (Option Nat) :=
  if l = [] then some none
  else
    let l1 := l.dropWhile pyIsSpace
    let l2 := match l1 with
      | c :: r => if c = ',' then r else l1
      | [] => l1
    let l3 := l2.dropWhile pyIsSpace
    let (ds, r) := takeDigits l3
    if ds.length = 4 ∧ r = [] then some (some (digitsToNat ds)) else none

/-- An optional ordinal suffix `(?:st|nd|rd|th)?` followed by the year tail,
with the regex backtracking on a suffix that does not lead to a match. -/
def afterDayOpt (rest : List Char) : Option (Option Nat) :=
  match eatAlt ["st".data, "nd".data, "rd".data, "th".data] rest with
  | some (_, r2) =>
    match yearEnd r2 with
    | some y => some y
    | none => yearEnd rest
  | none => yearEnd rest

/-- `(\d{1,2})(?:st|nd|rd|th)?(?:\s*,?\s*(\d{4}))?$`: the greedy `\d{1,2}`
tries a two-digit day first and backtracks to one digit. -/
def dayYearEnd (l : List Char) : Option (Nat × Option Nat) :=
  let ds := l.takeWhile isDigitC
  let try1 : Option (Nat × Option Nat) :=
    if 1 ≤ ds.length then
      match afterDayOpt (l.drop 1) with
      | some y => some (digitsToNat (l.take 1), y)
      | none => none
    else none
  if 2 ≤ ds.length then
    match afterDayOpt (l.drop 2) with
    | some y => some (digitsToNat (l.take 2), y)
    | none => try1
  else try1

/-- Regex of line 264: `(\w+)\s+(\d{1,2})(?:st|nd|rd|th)?(?:\s*,?\s*(\d{4}))?$`. -/
def parse11a (expr : List Char) : Option (List Char × Nat × Option Nat) :=
  let (w, r1) := takeWord expr
  if w = [] then none else
  match eatWs1 r1 with
  | none => none
  | some r2 =>
    match dayYearEnd r2 with
    | some (day, y) => some (w, day, y)
    | none => none

/-- The shared body of the two month/day grammars (lines 266-277 and
283-292): both `datetime(...)` constructions live in one `try`, so a
`ValueError` from either silently fails the grammar. -/
def monthDaySem (w : List Char) (mth day : Nat) (yearOpt : Option Nat) (today : Date) :
    Option (Date × String) :=
  let year : Int := match yearOpt with
    | some y => (y : Int)
    | none => today.year
  match mkDate year mth day with
  | none => none
  | some c =>
    if yearOpt = none ∧ dateLt c today then
      match mkDate (year + 1) mth day with
      | none => none
      | some c2 => some (c2, s!"{titleWord w} {day}, {c2.year}")
    else some (c, s!"{titleWord w} {day}, {c.year}")

/-- Lines 263-277: `<month> <day>[, <year>]`. -/
def p11a (expr : List Char) (today : Date) : Option (Date × String) :=
  match parse11a expr with
  | none => none
  | some (w, day, y) =>
    match monthLookup (String.mk w) with
    | some mth => monthDaySem w mth day y today
    | none => none

/-- Regex of line 280: `(\d{1,2})(?:st|nd|rd|th)?\s+(?:of\s+)?(\w+)(?:\s*,?\s*(\d{4}))?$`. -/
def parse11b (expr : List Char) : Option (Nat × List Char × Option Nat) :=
  let toWordYear (r : List Char) : Option (List Char × Option Nat) :=
    match eatWs1 r with
    | none => none
    | some r2 =>
      let afterOf : Option (List Char) :=
        match eatLit "of".data r2 with
        | some r3 => eatWs1 r3
        | none => none
      let tryFrom (start : List Char) : Option (List Char × Option Nat) :=
        let (w, r4) := takeWord start
        if w = [] then none else
        match yearEnd r4 with
        | some y => some (w, y)
        | none => none
      match afterOf with
      | some r3 =>
        match tryFrom r3 with
        | some res => some res
        | none => tryFrom r2
      | none => tryFrom r2
  let ds := expr.takeWhile isDigitC
  let withDay (n : Nat) : Option (Nat × List Char × Option Nat) :=
    let rest := expr.drop n
    let afterSfx : Option (List Char × Option Nat) :=
      match eatAlt ["st".data, "nd".data, "rd".data, "th".data] rest with
      | some (_, r2) =>
        match toWordYear r2 with
        | some res => some res
        | none => toWordYear rest
      | none => toWordYear rest
    match afterSfx with
    | some (w, y) => some (digitsToNat (expr.take n), w, y)
    | none => none
  let try1 := if 1 ≤ ds.length then withDay 1 else none
  if 2 ≤ ds.length then
    match withDay 2 with
    | some res => some res
    | none => try1
  else try1

/-- Lines 279-292: `<day> [of] <month>[, <year>]`. -/
def p11b (expr : List Char) (today : Date) : Option (Date × String) :=
  match parse11b expr with
  | none => none
  | some (day, w, y) =>
    match monthLookup (String.mk w) with
    | some mth => monthDaySem w mth day y today
    | none => none

/-- Lines 294-302: ISO `YYYY-MM-DD` passthrough with validation. -/
def p12 (expr : List Char) (_today : Date) : Option (Date × String) :=
  match eatDigits 4 expr with
  | none => none
  | some (y4, r1) =>
    match r1 with
    | c :: r2 =>
      if ¬ c = '-' then none else
      match eatDigits 2 r2 with
      | none => none
      | some (m2, r3) =>
        match r3 with
        | c2 :: r4 =>
          if ¬ c2 = '-' then none else
          match eatDigits 2 r4 with
          | none => none
          | some (d2, r5) =>
            if ¬ r5 = [] then none else
            match mkDate (digitsToNat y4) (digitsToNat m2) (digitsToNat d2) with
            | some c3 => some (c3, "ISO date")
            | none => none
        | [] => none
    | [] => none

/-- The ordered chain of grammars, first match wins; an uncaught raise
aborts the whole resolution. -/
def runChain (expr : List Char) (today : Date) : Except String (Option (Date × String)) :=
  match fixedMatch expr today with
  | some r => .ok (some r)
  | none =>
  match p3 expr today with
  | some r => .ok (some r)
  | none =>
  match p4 expr today with
  | .error e => .error e
  | .ok (some r) => .ok (some r)
  | .ok none =>
  match p5 expr today with
  | some r => .ok (some r)
  | none =>
  match p6 expr today with
  | .error e => .error e
  | .ok (some r) => .ok (some r)
  | .ok none =>
  match p7 expr today with
  | .error e => .error e
  | .ok (some r) => .ok (some r)
  | .ok none =>
  match p8 expr today with
  | .error e => .error e
  | .ok (some r) => .ok (some r)
  | .ok none =>
  match p9 expr today with
  | some r => .ok (some r)
  | none =>
  match p10 expr today with
  | some r => .ok (some r)
  | none =>
  match p11a expr today with
  | some r => .ok (some r)
  | none =>
  match p11b expr today with
  | some r => .ok (some r)
  | none =>
  match p12 expr today with
  | some r => .ok (some r)
  | none => .ok none

/-! ## Result building (lines 304-325) -/

/-- The structured result dict of a successful resolution. -/
structure ResolveResult where
  date : Date
  day_of_week : String
  expression : String
  description : String
  days_from_today : Int
  warning : Option String
deriving DecidableEq, Repr

/-- A value returned across the boundary: either the result dict or the
error dict of line 306. -/
inductive Output where
  | result (r : ResolveResult)
  | errorDict (msg : String)
deriving DecidableEq, Repr

def warnMsg : String := "Time component detected but ignored (date-only resolver)"

def oclockKw : String :=
  String.mk ['o', Char.ofNat 39, 'c', 'l', 'o', 'c', 'k']

/-- Does the pattern start the input? -/
def startsL : List Char → List Char → Bool
  | [], _ => true
  | _ :: _, [] => false
  | p :: ps, c :: r => p = c && startsL ps r

/-- Python `kw in s`: substring containment. -/
def hasSub (pat : List Char) : List Char → Bool
  | [] => pat.isEmpty
  | c :: r => startsL pat (c :: r) || hasSub pat r

/-- Line 321-322: residual time markers searched in the lowercased input. -/
def timeKwHit (l : List Char) : Bool :=
  hasSub "at ".data l || hasSub " am".data l || hasSub " pm".data l ||
  hasSub "noon".data l || hasSub "midnight".data l || hasSub oclockKw.data l

/-- Lines 308-323: assemble the result record. -/
def buildResult (parsed : Date) (desc : String) (expression : String) (hts : Bool)
    (today : Date) : ResolveResult :=
  { date := parsed
    day_of_week := dayName (weekday parsed)
    expression := expression
    description := desc
    days_from_today := toOrdinal parsed - toOrdinal today
    warning := if hts then some warnMsg
               else if timeKwHit (pyLower expression.data) then some warnMsg
               else none }

/-- `resolve(expression, ref)` from `dates.py`.  `.error` is an uncaught
Python exception escaping the call; `.ok` is the returned dict. -/
def resolve (expression : String) (ref : Date) : Except String Output :=
  let today := ref
  let norm := stripTime (pyStrip (pyLower expression.data))
  match runChain norm.1 today with
  | .error e => .error e
  | .ok none => .ok (.errorDict ("Could not parse: " ++ quoteC ++ expression ++ quoteC))
  | .ok (some (d, ds)) => .ok (.result (buildResult d ds expression norm.2 today))

/-! ## Calendar arithmetic lemmas -/

@[simp] theorem toOrdinal_mk (y : Int) (m d : Nat) :
    toOrdinal ⟨y, m, d⟩ = daysBeforeYear y + daysBeforeMonth y m + d := rfl

@[simp] theorem validDate_mk (y : Int) (m d : Nat) :
    ValidDate ⟨y, m, d⟩ ↔ 1 ≤ m ∧ m ≤ 12 ∧ 1 ≤ d ∧ d ≤ monthLen y m := Iff.rfl

theorem monthLen_pos (y : Int) (m : Nat) (h1 : 1 ≤ m) (h2 : m ≤ 12) :
    0 < monthLen y m := by
  interval_cases m <;> simp only [monthLen] <;> (try split) <;> omega

theorem monthLen_le (y : Int) (m : Nat) : monthLen y m ≤ 31 := by
  unfold monthLen
  split <;> first | omega | (split <;> omega)

theorem dbm_step (y : Int) (m : Nat) (h1 : 1 ≤ m) (h2 : m ≤ 11) :
    daysBeforeMonth y (m + 1) = daysBeforeMonth y m + monthLen y m := by
  interval_cases m <;> rcases h : isLeap y <;>
    simp [daysBeforeMonth, monthLen, h]

theorem isLeap_iff (y : Int) :
    isLeap y = true ↔ (y % 4 = 0 ∧ (¬ y % 100 = 0 ∨ y % 400 = 0)) := by
  simp [isLeap]

theorem dby_step (y : Int) :
    daysBeforeYear (y + 1) = daysBeforeYear y + 365 + (if isLeap y then 1 else 0) := by
  rcases h : isLeap y
  · have hp := (isLeap_iff y).not.mp (by simp [h])
    push_neg at hp
    simp only [Bool.false_eq_true, if_false]
    simp only [daysBeforeYear, add_sub_cancel_right]
    by_cases h4 : y % 4 = 0
    · obtain ⟨h100, h400⟩ := hp h4
      omega
    · omega
  · obtain ⟨h4, hrest⟩ := (isLeap_iff y).mp h
    simp only [if_true]
    simp only [daysBeforeYear, add_sub_cancel_right]
    rcases hrest with h100 | h400 <;> omega

theorem succD_spec (d : Date) (h : ValidDate d) :
    toOrdinal (succD d) = toOrdinal d + 1 ∧ ValidDate (succD d) := by
  obtain ⟨h1, h2, h3, h4⟩ := h
  have hord : toOrdinal d = daysBeforeYear d.year + daysBeforeMonth d.year d.month + d.day := rfl
  unfold succD
  split_ifs with hd hm
  · refine ⟨?_, ?_⟩
    · rw [toOrdinal_mk, hord]
      push_cast
      ring
    · rw [validDate_mk]
      exact ⟨h1, h2, by omega, by omega⟩
  · have hdbm := dbm_step d.year d.month h1 (by omega)
    have hday : d.day = monthLen d.year d.month := by omega
    have hdc : (d.day : Int) = (monthLen d.year d.month : Int) := by exact_mod_cast hday
    refine ⟨?_, ?_⟩
    · rw [toOrdinal_mk, hord, hdbm]
      push_cast
      omega
    · rw [validDate_mk]
      have := monthLen_pos d.year (d.month + 1) (by omega) (by omega)
      exact ⟨by omega, by omega, by omega, by omega⟩
  · have hm12 : d.month = 12 := by omega
    have h31 : monthLen d.year 12 = 31 := rfl
    have hday : d.day = 31 := by rw [hm12] at h4 hd; omega
    have hstep := dby_step d.year
    have h334 : daysBeforeMonth d.year 12 = 334 + (if isLeap d.year then 1 else 0) := by
      rcases hL : isLeap d.year <;> simp [daysBeforeMonth, hL]
    have h0 : daysBeforeMonth (d.year + 1) 1 = 0 := by simp [daysBeforeMonth]
    refine ⟨?_, ?_⟩
    · rw [toOrdinal_mk, hord, hm12, hday, h0]
      rcases hL : isLeap d.year <;>
        simp only [hL, Bool.false_eq_true, if_false, if_true] at hstep h334 <;>
        rw [h334] <;> omega
    · rw [validDate_mk]
      refine ⟨by omega, by omega, by omega, ?_⟩
      norm_num [monthLen]

theorem predD_spec (d : Date) (h : ValidDate d) :
    toOrdinal (predD d) = toOrdinal d - 1 ∧ ValidDate (predD d) := by
  obtain ⟨h1, h2, h3, h4⟩ := h
  have hord : toOrdinal d = daysBeforeYear d.year + daysBeforeMonth d.year d.month + d.day := rfl
  unfold predD
  split_ifs with hd hm
  · refine ⟨?_, ?_⟩
    · rw [toOrdinal_mk, hord]
      have : ((d.day - 1 : Nat) : Int) = (d.day : Int) - 1 := by omega
      omega
    · rw [validDate_mk]
      exact ⟨h1, h2, by omega, by omega⟩
  · have hday : d.day = 1 := by omega
    have hdbm := dbm_step d.year (d.month - 1) (by omega) (by omega)
    have hm1 : d.month - 1 + 1 = d.month := by omega
    rw [hm1] at hdbm
    refine ⟨?_, ?_⟩
    · rw [toOrdinal_mk, hord, hday]
      push_cast [hdbm]
      omega
    · rw [validDate_mk]
      have := monthLen_pos d.year (d.month - 1) (by omega) (by omega)
      exact ⟨by omega, by omega, by omega, le_refl _⟩
  · have hm1 : d.month = 1 := by omega
    have hday : d.day = 1 := by omega
    have hstep := dby_step (d.year - 1)
    rw [sub_add_cancel] at hstep
    have h334 : daysBeforeMonth (d.year - 1) 12 = 334 + (if isLeap (d.year - 1) then 1 else 0) := by
      rcases hL : isLeap (d.year - 1) <;> simp [daysBeforeMonth, hL]
    have h0 : daysBeforeMonth d.year 1 = 0 := by simp [daysBeforeMonth]
    refine ⟨?_, ?_⟩
    · rw [toOrdinal_mk, hord, hm1, hday, h0]
      have h31 : monthLen (d.year - 1) 12 = 31 := rfl
      rcases hL : isLeap (d.year - 1) <;>
        simp only [hL, Bool.false_eq_true, if_false, if_true] at hstep h334 <;>
        rw [h334] <;> omega
    · rw [validDate_mk]
      refine ⟨by omega, by omega, by omega, ?_⟩
      norm_num [monthLen]

theorem succN_spec (n : Nat) : ∀ d : Date, ValidDate d →
    toOrdinal (succN d n) = toOrdinal d + n ∧ ValidDate (succN d n) := by
  induction n with
  | zero => intro d hd; simpa [succN] using hd
  | succ k ih =>
    intro d hd
    obtain ⟨he, hv⟩ := succD_spec d hd
    obtain ⟨he2, hv2⟩ := ih (succD d) hv
    have hstep : succN d (k + 1) = succN (succD d) k := by simp [succN]
    refine ⟨?_, by rw [hstep]; exact hv2⟩
    rw [hstep, he2, he]
    push_cast
    ring

theorem predN_spec (n : Nat) : ∀ d : Date, ValidDate d →
    toOrdinal (predN d n) = toOrdinal d - n ∧ ValidDate (predN d n) := by
  induction n with
  | zero => intro d hd; simpa [predN] using hd
  | succ k ih =>
    intro d hd
    obtain ⟨he, hv⟩ := predD_spec d hd
    obtain ⟨he2, hv2⟩ := ih (predD d) hv
    have hstep : predN d (k + 1) = predN (predD d) k := by simp [predN]
    refine ⟨?_, by rw [hstep]; exact hv2⟩
    rw [hstep, he2, he]
    push_cast
    ring

theorem addDays_spec (d : Date) (h : ValidDate d) (n : Int) :
    toOrdinal (addDays d n) = toOrdinal d + n ∧ ValidDate (addDays d n) := by
  unfold addDays
  split_ifs with hn
  · have := succN_spec n.toNat d h
    rwa [Int.toNat_of_nonneg hn] at this
  · have := predN_spec (-n).toNat d h
    rw [Int.toNat_of_nonneg (by omega)] at this
    obtain ⟨he, hv⟩ := this
    exact ⟨by omega, hv⟩

theorem weekday_nonneg (d : Date) : 0 ≤ weekday d :=
  Int.emod_nonneg _ (by norm_num)

theorem weekday_lt (d : Date) : weekday d < 7 :=
  Int.emod_lt_of_pos _ (by norm_num)

theorem weekday_addDays (d : Date) (h : ValidDate d) (n : Int) :
    weekday (addDays d n) = (weekday d + n) % 7 := by
  unfold weekday
  rw [(addDays_spec d h n).1]
  omega

theorem succN_succN (a b : Nat) : ∀ d : Date, succN (succN d a) b = succN d (a + b) := by
  induction a with
  | zero => intro d; simp [succN]
  | succ k ih =>
    intro d
    have h1 : succN d (k + 1) = succN (succD d) k := by simp [succN]
    have h2 : succN d (k + 1 + b) = succN (succD d) (k + b) := by
      have he : k + 1 + b = (k + b) + 1 := by omega
      rw [he]
      simp [succN]
    rw [h1, h2, ih]

theorem addDays_addDays (d : Date) (a b : Int) (ha : 0 ≤ a) (hb : 0 ≤ b) :
    addDays (addDays d a) b = addDays d (a + b) := by
  unfold addDays
  rw [if_pos ha, if_pos hb, if_pos (by omega : (0:Int) ≤ a + b), succN_succN]
  congr 1
  omega

/-! ## Business-day stepping lemmas -/

theorem nextBiz_eq (d : Date) (h : ValidDate d) :
    nextBiz d = addDays d (if weekday d = 4 then 3 else if weekday d = 5 then 2 else 1) := by
  have h0 := weekday_nonneg d
  have h7 := weekday_lt d
  have a12 : addDays (addDays d 1) 1 = addDays d 2 :=
    addDays_addDays d 1 1 (by norm_num) (by norm_num)
  have a23 : addDays (addDays d 2) 1 = addDays d 3 :=
    addDays_addDays d 2 1 (by norm_num) (by norm_num)
  rcases (by omega : weekday d = 0 ∨ weekday d = 1 ∨ weekday d = 2 ∨ weekday d = 3 ∨
      weekday d = 4 ∨ weekday d = 5 ∨ weekday d = 6) with hw|hw|hw|hw|hw|hw|hw <;>
    simp [nextBiz, seekBiz, weekday_addDays d h, hw, a12, a23]

theorem nextBiz_spec (d : Date) (h : ValidDate d) :
    ValidDate (nextBiz d) ∧ toOrdinal d < toOrdinal (nextBiz d) ∧
      weekday (nextBiz d) < 5 ∧
      ∀ j : Int, toOrdinal d < j → j < toOrdinal (nextBiz d) → 5 ≤ (j + 6) % 7 := by
  have h0 := weekday_nonneg d
  have h7 := weekday_lt d
  rw [nextBiz_eq d h]
  rcases (by omega : weekday d = 4 ∨ weekday d = 5 ∨
      (¬ weekday d = 4 ∧ ¬ weekday d = 5)) with hw | hw | ⟨hw1, hw2⟩
  · rw [if_pos hw]
    obtain ⟨he, hv⟩ := addDays_spec d h 3
    refine ⟨hv, by omega, ?_, ?_⟩
    · rw [weekday_addDays d h 3, hw]
      decide
    · intro j hj1 hj2
      rw [he] at hj2
      unfold weekday at hw
      omega
  · rw [if_neg (by omega), if_pos hw]
    obtain ⟨he, hv⟩ := addDays_spec d h 2
    refine ⟨hv, by omega, ?_, ?_⟩
    · rw [weekday_addDays d h 2, hw]
      decide
    · intro j hj1 hj2
      rw [he] at hj2
      unfold weekday at hw
      omega
  · rw [if_neg hw1, if_neg hw2]
    obtain ⟨he, hv⟩ := addDays_spec d h 1
    refine ⟨hv, by omega, ?_, ?_⟩
    · rw [weekday_addDays d h 1]
      unfold weekday at hw1 hw2 ⊢
      omega
    · intro j hj1 hj2
      rw [he] at hj2
      omega

theorem busAdd_succ (n : Nat) : ∀ d : Date, busAdd d (n + 1) = nextBiz (busAdd d n) := by
  induction n with
  | zero => intro d; rfl
  | succ k ih =>
    intro d
    have h1 : busAdd d (k + 1 + 1) = busAdd (nextBiz d) (k + 1) := rfl
    rw [h1, ih (nextBiz d)]
    rfl

theorem busAdd_spec (d : Date) (h : ValidDate d) (n : Nat) :
    ValidDate (busAdd d n) ∧ toOrdinal d ≤ toOrdinal (busAdd d n) ∧
      (1 ≤ n → weekday (busAdd d n) < 5 ∧ toOrdinal d < toOrdinal (busAdd d n)) := by
  induction n with
  | zero => exact ⟨h, le_refl _, by omega⟩
  | succ k ih =>
    obtain ⟨hv, hle, _⟩ := ih
    obtain ⟨hv2, hlt, hwk, _⟩ := nextBiz_spec (busAdd d k) hv
    rw [busAdd_succ k d]
    exact ⟨hv2, by omega, fun _ => ⟨hwk, by omega⟩⟩

theorem busAdd_friday (d : Date) (h : ValidDate d) (hf : weekday d = 4) :
    busAdd d 5 = addDays d 7 := by
  have n1 : nextBiz d = addDays d 3 := by rw [nextBiz_eq d h, if_pos hf]
  have v3 : ValidDate (addDays d 3) := (addDays_spec d h 3).2
  have step : ∀ k : Int, 3 ≤ k → k ≤ 6 → ValidDate (addDays d k) →
      weekday (addDays d k) = k - 3 → nextBiz (addDays d k) = addDays d (k + 1) := by
    intro k hk3 hk6 hvk hwk
    rw [nextBiz_eq (addDays d k) hvk, hwk, if_neg (by omega), if_neg (by omega),
      addDays_addDays d k 1 (by omega) (by norm_num)]
  have w : ∀ k : Int, weekday (addDays d k) = (4 + k) % 7 := by
    intro k
    rw [weekday_addDays d h k, hf]
  have n2 : nextBiz (addDays d 3) = addDays d 4 :=
    step 3 (by norm_num) (by norm_num) v3 (by rw [w 3]; norm_num)
  have n3 : nextBiz (addDays d 4) = addDays d 5 :=
    step 4 (by norm_num) (by norm_num) (addDays_spec d h 4).2 (by rw [w 4]; norm_num)
  have n4 : nextBiz (addDays d 5) = addDays d 6 :=
    step 5 (by norm_num) (by norm_num) (addDays_spec d h 5).2 (by rw [w 5]; norm_num)
  have n5 : nextBiz (addDays d 6) = addDays d 7 :=
    step 6 (by norm_num) (by norm_num) (addDays_spec d h 6).2 (by rw [w 6]; norm_num)
  show nextBiz (nextBiz (nextBiz (nextBiz (nextBiz d)))) = addDays d 7
  rw [n1, n2, n3, n4, n5]

/-! ## Unfolding helpers for `resolve` and the chain -/

theorem resolve_eq (e : String) (ref : Date) :
    resolve e ref =
      match runChain (stripTime (pyStrip (pyLower e.data))).1 ref with
      | .error x => .error x
      | .ok none => .ok (.errorDict ("Could not parse: " ++ quoteC ++ e ++ quoteC))
      | .ok (some (d, ds)) =>
          .ok (.result (buildResult d ds e (stripTime (pyStrip (pyLower e.data))).2 ref)) := rfl

theorem runChain_fixed (e : List Char) (t : Date) (r : Date × String)
    (h : fixedMatch e t = some r) : runChain e t = .ok (some r) := by
  unfold runChain
  rw [h]

theorem runChain_eq4 (e : List Char) (t : Date)
    (h0 : fixedMatch e t = none) (h3 : p3 e t = none) :
    runChain e t =
      match p4 e t with
      | .error m => .error m
      | .ok (some r) => .ok (some r)
      | .ok none =>
        match p5 e t with
        | some r => .ok (some r)
        | none =>
        match p6 e t with
        | .error m => .error m
        | .ok (some r) => .ok (some r)
        | .ok none =>
        match p7 e t with
        | .error m => .error m
        | .ok (some r) => .ok (some r)
        | .ok none =>
        match p8 e t with
        | .error m => .error m
        | .ok (some r) => .ok (some r)
        | .ok none =>
        match p9 e t with
        | some r => .ok (some r)
        | none =>
        match p10 e t with
        | some r => .ok (some r)
        | none =>
        match p11a e t with
        | some r => .ok (some r)
        | none =>
        match p11b e t with
        | some r => .ok (some r)
        | none =>
        match p12 e t with
        | some r => .ok (some r)
        | none => .ok none := by
  unfold runChain
  rw [h0, h3]

theorem runChain_p4some (e : List Char) (t : Date) (r : Date × String)
    (h0 : fixedMatch e t = none) (h3 : p3 e t = none)
    (h4 : p4 e t = .ok (some r)) : runChain e t = .ok (some r) := by
  simp only [runChain_eq4 e t h0 h3, h4]

theorem runChain_p4err (e : List Char) (t : Date) (m : String)
    (h0 : fixedMatch e t = none) (h3 : p3 e t = none)
    (h4 : p4 e t = .error m) : runChain e t = .error m := by
  simp only [runChain_eq4 e t h0 h3, h4]

theorem runChain_p5 (e : List Char) (t : Date) (r : Date × String)
    (h0 : fixedMatch e t = none) (h3 : p3 e t = none) (h4 : p4 e t = .ok none)
    (h5 : p5 e t = some r) : runChain e t = .ok (some r) := by
  simp only [runChain_eq4 e t h0 h3, h4, h5]

theorem runChain_p6some (e : List Char) (t : Date) (r : Date × String)
    (h0 : fixedMatch e t = none) (h3 : p3 e t = none) (h4 : p4 e t = .ok none)
    (h5 : p5 e t = none) (h6 : p6 e t = .ok (some r)) : runChain e t = .ok (some r) := by
  simp only [runChain_eq4 e t h0 h3, h4, h5, h6]

theorem runChain_p6err (e : List Char) (t : Date) (m : String)
    (h0 : fixedMatch e t = none) (h3 : p3 e t = none) (h4 : p4 e t = .ok none)
    (h5 : p5 e t = none) (h6 : p6 e t = .error m) : runChain e t = .error m := by
  simp only [runChain_eq4 e t h0 h3, h4, h5, h6]

theorem runChain_p7some (e : List Char) (t : Date) (r : Date × String)
    (h0 : fixedMatch e t = none) (h3 : p3 e t = none) (h4 : p4 e t = .ok none)
    (h5 : p5 e t = none) (h6 : p6 e t = .ok none) (h7 : p7 e t = .ok (some r)) :
    runChain e t = .ok (some r) := by
  simp only [runChain_eq4 e t h0 h3, h4, h5, h6, h7]

theorem runChain_p7err (e : List Char) (t : Date) (m : String)
    (h0 : fixedMatch e t = none) (h3 : p3 e t = none) (h4 : p4 e t = .ok none)
    (h5 : p5 e t = none) (h6 : p6 e t = .ok none) (h7 : p7 e t = .error m) :
    runChain e t = .error m := by
  simp only [runChain_eq4 e t h0 h3, h4, h5, h6, h7]

theorem runChain_p8some (e : List Char) (t : Date) (r : Date × String)
    (h0 : fixedMatch e t = none) (h3 : p3 e t = none) (h4 : p4 e t = .ok none)
    (h5 : p5 e t = none) (h6 : p6 e t = .ok none) (h7 : p7 e t = .ok none)
    (h8 : p8 e t = .ok (some r)) : runChain e t = .ok (some r) := by
  simp only [runChain_eq4 e t h0 h3, h4, h5, h6, h7, h8]

theorem runChain_p8err (e : List Char) (t : Date) (m : String)
    (h0 : fixedMatch e t = none) (h3 : p3 e t = none) (h4 : p4 e t = .ok none)
    (h5 : p5 e t = none) (h6 : p6 e t = .ok none) (h7 : p7 e t = .ok none)
    (h8 : p8 e t = .error m) : runChain e t = .error m := by
  simp only [runChain_eq4 e t h0 h3, h4, h5, h6, h7, h8]

theorem runChain_p11a (e : List Char) (t : Date) (r : Date × String)
    (h0 : fixedMatch e t = none) (h3 : p3 e t = none) (h4 : p4 e t = .ok none)
    (h5 : p5 e t = none) (h6 : p6 e t = .ok none) (h7 : p7 e t = .ok none)
    (h8 : p8 e t = .ok none) (h9 : p9 e t = none) (h10 : p10 e t = none)
    (h11 : p11a e t = some r) : runChain e t = .ok (some r) := by
  simp only [runChain_eq4 e t h0 h3, h4, h5, h6, h7, h8, h9, h10, h11]

theorem resolve_of_chain (e : String) (ref : Date) (d : Date) (ds : String)
    (h : runChain (stripTime (pyStrip (pyLower e.data))).1 ref = .ok (some (d, ds))) :
    resolve e ref =
      .ok (.result (buildResult d ds e (stripTime (pyStrip (pyLower e.data))).2 ref)) := by
  rw [resolve_eq, h]

theorem resolve_of_chain_err (e : String) (ref : Date) (m : String)
    (h : runChain (stripTime (pyStrip (pyLower e.data))).1 ref = .error m) :
    resolve e ref = .error m := by
  rw [resolve_eq, h]

theorem monthLen_indep (y1 y2 : Int) (m : Nat) (hne : ¬ m = 2)
    (hm1 : 1 ≤ m) (hm2 : m ≤ 12) : monthLen y1 m = monthLen y2 m := by
  interval_cases m <;> simp_all [monthLen]

/-- A `replace(year=y2)` on a valid date fails validation exactly when the
date is a Feb 29 and the target year is not a leap year. -/
theorem valid_replace_year_iff (ref : Date) (href : ValidDate ref) (y2 : Int) :
    (¬ ValidDate ⟨y2, ref.month, ref.day⟩) ↔
      (ref.month = 2 ∧ ref.day = 29 ∧ isLeap y2 = false) := by
  obtain ⟨h1, h2, h3, h4⟩ := href
  rw [validDate_mk]
  have hB : monthLen y2 2 = if isLeap y2 then 29 else 28 := rfl
  have hBr : monthLen ref.year 2 = if isLeap ref.year then 29 else 28 := rfl
  constructor
  · intro hn
    push_neg at hn
    have hlt : monthLen y2 ref.month < ref.day := hn h1 h2 h3
    by_cases hm2 : ref.month = 2
    · rw [hm2] at hlt h4
      have hA : monthLen ref.year 2 ≤ 29 := by
        rw [hBr]
        split <;> omega
      rcases hL : isLeap y2
      · refine ⟨hm2, ?_, rfl⟩
        rw [hB, hL] at hlt
        simp at hlt
        omega
      · exfalso
        rw [hB, hL] at hlt
        simp at hlt
        omega
    · exfalso
      have heq := monthLen_indep y2 ref.year ref.month hm2 h1 h2
      omega
  · rintro ⟨hm2, hd, hL⟩ hcon
    have h28 : monthLen y2 2 = 28 := by
      rw [hB, hL]
      rfl
    have hle := hcon.2.2.2
    rw [hm2, hd] at hle
    omega

/-! ## Claim theorems -/

/-- Claim C2 (code bug): at the Sunday reference 2026-02-08 the source
resolves "this weekend" to the reference date itself with offset 0; the
guard on line 108 that names "this weekend" re-assigns 0 to a value that is
already 0, so the advertised 7-day advance never happens. -/
theorem thisWeekend_sunday_noAdvance :
    resolve "this weekend" ⟨2026, 2, 8⟩ =
      .ok (.result
        { date := ⟨2026, 2, 8⟩
          day_of_week := "Sunday"
          expression := "this weekend"
          description := "end of this week (Sunday)"
          days_from_today := 0
          warning := none }) ∧
    weekday ⟨2026, 2, 8⟩ = 6 := ⟨rfl, rfl⟩

/-- Claim C3, counterexample: the bare phrase "next year" matches no
grammar (pattern 3 only handles weekday names, "week" and "month"), so
`resolve` returns the parse-error value rather than January 1 of the
following year. -/
theorem bare_nextYear_unrecognized :
    resolve "next year" ⟨2026, 2, 8⟩ =
      .ok (.errorDict ("Could not parse: " ++ quoteC ++ "next year" ++ quoteC)) := rfl

/-- Claim C3 (amended): for every reference date, resolving "start of next
year" or "beginning of next year" succeeds with January 1 of the following
year, while the bare phrase "next year" fails with the parse-error value. -/
theorem startOfNextYear_jan1 (ref : Date) :
    resolve "start of next year" ref =
      .ok (.result (buildResult ⟨ref.year + 1, 1, 1⟩ "start of next year"
        "start of next year" false ref)) ∧
    resolve "beginning of next year" ref =
      .ok (.result (buildResult ⟨ref.year + 1, 1, 1⟩ "start of next year"
        "beginning of next year" false ref)) ∧
    resolve "next year" ref =
      .ok (.errorDict ("Could not parse: " ++ quoteC ++ "next year" ++ quoteC)) ∧
    (buildResult ⟨ref.year + 1, 1, 1⟩ "start of next year"
        "start of next year" false ref).date = ⟨ref.year + 1, 1, 1⟩ :=
  ⟨rfl, rfl, rfl, rfl⟩

/-- Witness for C3 (amended) at the reference 2026-02-08. -/
theorem startOfNextYear_jan1_w :
    resolve "start of next year" ⟨2026, 2, 8⟩ =
      .ok (.result (buildResult ⟨2027, 1, 1⟩ "start of next year"
        "start of next year" false ⟨2026, 2, 8⟩)) :=
  (startOfNextYear_jan1 ⟨2026, 2, 8⟩).1

/-- Claim C10: "in 0 business days" resolves for every reference date
(weekends included) to the reference date itself with `days_from_today`
equal to 0: the stepping loop never executes for a count of 0. -/
theorem zero_business_days_identity (ref : Date) :
    resolve "in 0 business days" ref =
      .ok (.result (buildResult ref "in 0 business day(s)" "in 0 business days" false ref)) ∧
    (buildResult ref "in 0 business day(s)" "in 0 business days" false ref).date = ref ∧
    (buildResult ref "in 0 business day(s)" "in 0 business days" false ref).days_from_today = 0 := by
  refine ⟨rfl, rfl, ?_⟩
  simp [buildResult]

/-- Witness for C10 at the Saturday reference 2026-02-07. -/
theorem zero_business_days_identity_w :
    resolve "in 0 business days" ⟨2026, 2, 7⟩ =
      .ok (.result (buildResult ⟨2026, 2, 7⟩ "in 0 business day(s)"
        "in 0 business days" false ⟨2026, 2, 7⟩)) :=
  (zero_business_days_identity ⟨2026, 2, 7⟩).1

/-- Claim C5: whenever `resolve` succeeds, the `days_from_today` field of
the returned record equals the returned date minus the reference date in
whole days. -/
theorem days_from_today_offset (e : String) (ref : Date) (r : ResolveResult)
    (h : resolve e ref = .ok (.result r)) :
    r.days_from_today = toOrdinal r.date - toOrdinal ref := by
  rw [resolve_eq] at h
  rcases hc : runChain (stripTime (pyStrip (pyLower e.data))).1 ref with m | o
  · rw [hc] at h
    simp at h
  · rcases o with _ | ⟨d, ds⟩
    · rw [hc] at h
      simp at h
    · rw [hc] at h
      simp only [Except.ok.injEq, Output.result.injEq] at h
      rw [← h]
      simp [buildResult]

/-- Witness for C5 at the concrete resolution of "tomorrow". -/
theorem days_from_today_offset_w :
    (buildResult (addDays ⟨2026, 2, 8⟩ 1) "tomorrow" "tomorrow" false ⟨2026, 2, 8⟩).days_from_today =
      toOrdinal (buildResult (addDays ⟨2026, 2, 8⟩ 1) "tomorrow" "tomorrow" false ⟨2026, 2, 8⟩).date -
        toOrdinal ⟨2026, 2, 8⟩ :=
  days_from_today_offset "tomorrow" ⟨2026, 2, 8⟩
    (buildResult (addDays ⟨2026, 2, 8⟩ 1) "tomorrow" "tomorrow" false ⟨2026, 2, 8⟩) rfl

/-- Claim C9: an expression matched by no grammar yields exactly the
parse-error value naming the original input, and that value arises in no
other way. -/
theorem unrecognized_error_value (e : String) (ref : Date) :
    (runChain (stripTime (pyStrip (pyLower e.data))).1 ref = .ok none →
      resolve e ref = .ok (.errorDict ("Could not parse: " ++ quoteC ++ e ++ quoteC))) ∧
    (∀ m, resolve e ref = .ok (.errorDict m) →
      runChain (stripTime (pyStrip (pyLower e.data))).1 ref = .ok none ∧
      m = "Could not parse: " ++ quoteC ++ e ++ quoteC) := by
  constructor
  · intro h
    rw [resolve_eq, h]
  · intro m hm
    rw [resolve_eq] at hm
    rcases hc : runChain (stripTime (pyStrip (pyLower e.data))).1 ref with m2 | o
    · rw [hc] at hm
      simp at hm
    · rcases o with _ | ⟨d, ds⟩
      · rw [hc] at hm
        simp only [Except.ok.injEq, Output.errorDict.injEq] at hm
        exact ⟨rfl, hm.symm⟩
      · rw [hc] at hm
        simp at hm

/-- Witness for C9 at the scenario input "not a date". -/
theorem unrecognized_error_value_w :
    resolve "not a date" ⟨2026, 2, 8⟩ =
      .ok (.errorDict ("Could not parse: " ++ quoteC ++ "not a date" ++ quoteC)) :=
  (unrecognized_error_value "not a date" ⟨2026, 2, 8⟩).1 rfl

/-- Claim C4: for every weekday number and reference date `_next_weekday`
lands strictly in the future, at most 7 days ahead, on the requested
weekday, at exactly the cyclic offset `(w - weekday(D) - 1) % 7 + 1`; and
resolving "next W" for every recognised weekday name W uses exactly that
helper. -/
theorem next_weekday_strict_future (w : Int) (hw0 : 0 ≤ w) (hw7 : w < 7)
    (ref : Date) (href : ValidDate ref) :
    (toOrdinal ref < toOrdinal (nextWeekday w ref 0) ∧
     toOrdinal (nextWeekday w ref 0) ≤ toOrdinal ref + 7 ∧
     weekday (nextWeekday w ref 0) = w ∧
     toOrdinal (nextWeekday w ref 0) = toOrdinal ref + ((w - weekday ref - 1) % 7 + 1)) ∧
    ∀ p ∈ wdTable, resolve ("next " ++ p.1) ref =
      .ok (.result (buildResult (nextWeekday p.2 ref 0) ("next " ++ p.1)
        ("next " ++ p.1) false ref)) := by
  constructor
  · have h0 := weekday_nonneg ref
    have h7 := weekday_lt ref
    have hnw : nextWeekday w ref 0 = addDays ref
        ((if w - weekday ref ≤ 0 then w - weekday ref + 7 else w - weekday ref) + 0 * 7) := rfl
    obtain ⟨he, hv⟩ := addDays_spec ref href
      ((if w - weekday ref ≤ 0 then w - weekday ref + 7 else w - weekday ref) + 0 * 7)
    have hwd := weekday_addDays ref href
      ((if w - weekday ref ≤ 0 then w - weekday ref + 7 else w - weekday ref) + 0 * 7)
    rcases le_or_lt (w - weekday ref) 0 with hcase | hcase
    · rw [if_pos hcase] at he hwd hnw
      refine ⟨?_, ?_, ?_, ?_⟩ <;> rw [hnw] <;> [rw [he]; rw [he]; rw [hwd]; rw [he]] <;> omega
    · rw [if_neg (by omega)] at he hwd hnw
      refine ⟨?_, ?_, ?_, ?_⟩ <;> rw [hnw] <;> [rw [he]; rw [he]; rw [hwd]; rw [he]] <;> omega
  · intro p hp
    fin_cases hp <;> exact rfl

/-- Witness for C4 at weekday Wednesday (2) from the Sunday 2026-02-08. -/
theorem next_weekday_strict_future_w :
    weekday (nextWeekday 2 ⟨2026, 2, 8⟩ 0) = 2 ∧
    resolve ("next " ++ "wednesday") ⟨2026, 2, 8⟩ =
      .ok (.result (buildResult (nextWeekday 2 ⟨2026, 2, 8⟩ 0) ("next " ++ "wednesday")
        ("next " ++ "wednesday") false ⟨2026, 2, 8⟩)) := by
  have h := next_weekday_strict_future 2 (by norm_num) (by norm_num) ⟨2026, 2, 8⟩ (by decide)
  exact ⟨h.1.2.2.1, h.2 ("wednesday", 2) (by decide)⟩

/-! ## Lemmas for the business-day expression with arbitrary digit strings -/

theorem digit_not_space (c : Char) (h : isDigitC c = true) : pyIsSpace c = false := by
  simp [isDigitC] at h
  simp [pyIsSpace]
  omega

theorem digit_lower (c : Char) (h : isDigitC c = true) : lowerChar c = c := by
  simp [isDigitC] at h
  unfold lowerChar
  rw [if_neg]
  omega

theorem digit_le57 (c : Char) (h : isDigitC c = true) : c.toNat ≤ 57 := by
  simp [isDigitC] at h
  omega

theorem pyLower_digits (ds : List Char) (h : ∀ c ∈ ds, isDigitC c = true) :
    pyLower ds = ds := by
  induction ds with
  | nil => rfl
  | cons c cs ih =>
    have h1 := digit_lower c (h c (by simp))
    have h2 := ih (fun x hx => h x (by simp [hx]))
    simp only [pyLower, List.map_cons] at *
    rw [h1, h2]

theorem pyLower_append (a b : List Char) : pyLower (a ++ b) = pyLower a ++ pyLower b :=
  List.map_append lowerChar a b

theorem strip_of_ends (a : List Char) (c0 cl : Char)
    (h0 : pyIsSpace c0 = false) (hl : pyIsSpace cl = false) :
    pyStrip (c0 :: (a ++ [cl])) = c0 :: (a ++ [cl]) := by
  unfold pyStrip
  rw [List.dropWhile_cons]
  rw [h0]
  simp only [Bool.false_eq_true, if_false]
  rw [show (c0 :: (a ++ [cl])).reverse = cl :: (a.reverse ++ [c0]) from by simp]
  rw [List.dropWhile_cons, hl]
  simp

theorem append_days_split (x : List Char) :
    x ++ " business days".data = (x ++ " business day".data) ++ ['s'] := by
  rw [List.append_assoc]
  rfl

theorem pyStrip_inBiz (ds : List Char) :
    pyStrip ("in ".data ++ ds ++ " business days".data) =
      "in ".data ++ ds ++ " business days".data := by
  have hsplit := append_days_split ("in ".data ++ ds)
  rw [hsplit]
  have hshape : ("in ".data ++ ds ++ " business day".data) ++ ['s'] =
      'i' :: ((('n' :: ' ' :: ds) ++ " business day".data) ++ ['s']) := rfl
  rw [hshape]
  exact strip_of_ends _ 'i' 's' rfl rfl

theorem tsWordAlt_digit (d0 : Char) (x : List Char) (h97 : d0.toNat ≤ 57) :
    tsWordAlt (d0 :: x) = false := by
  have hm : ¬ (d0 :: x = "morning".data) := by
    intro he
    injection he with h1 _
    rw [h1] at h97
    exact absurd h97 (by decide)
  have ha : ¬ (d0 :: x = "afternoon".data) := by
    intro he
    injection he with h1 _
    rw [h1] at h97
    exact absurd h97 (by decide)
  have hev : ¬ (d0 :: x = "evening".data) := by
    intro he
    injection he with h1 _
    rw [h1] at h97
    exact absurd h97 (by decide)
  have hn : ¬ (d0 :: x = "night".data) := by
    intro he
    injection he with h1 _
    rw [h1] at h97
    exact absurd h97 (by decide)
  simp [tsWordAlt, hm, ha, hev, hn]

theorem tsSuffixAt_space_digits (d0 : Char) (cs : List Char) (hd0 : isDigitC d0 = true) :
    tsSuffixAt (' ' :: ((d0 :: cs) ++ " business days".data)) = false := by
  have hsp : pyIsSpace d0 = false := digit_not_space d0 hd0
  have h97 := digit_le57 d0 hd0
  have hna : ¬ d0 = 'a' := by
    intro he
    rw [he] at h97
    exact absurd h97 (by decide)
  have hni : ¬ d0 = 'i' := by
    intro he
    rw [he] at h97
    exact absurd h97 (by decide)
  have hword := tsWordAlt_digit d0 (cs ++ " business days".data) h97
  have hdw : List.dropWhile pyIsSpace ((d0 :: cs) ++ " business days".data) =
      d0 :: (cs ++ " business days".data) := by
    rw [List.cons_append, List.dropWhile_cons, hsp]
    simp
  have hat : tsAt (d0 :: (cs ++ " business days".data)) = false := by
    unfold tsAt
    rw [show eatLit "at".data (d0 :: (cs ++ " business days".data)) =
      (if d0 = 'a' then eatLit "t".data (cs ++ " business days".data) else none) from rfl]
    rw [if_neg hna]
  have hin : tsInThe (d0 :: (cs ++ " business days".data)) = false := by
    unfold tsInThe
    rw [show eatLit "in".data (d0 :: (cs ++ " business days".data)) =
      (if d0 = 'i' then eatLit "n".data (cs ++ " business days".data) else none) from rfl]
    rw [if_neg hni]
  show (pyIsSpace ' ' &&
    (let r2 := List.dropWhile pyIsSpace ((d0 :: cs) ++ " business days".data)
     tsAt r2 || tsInThe r2 || tsWordAlt r2)) = false
  rw [show pyIsSpace ' ' = true from rfl]
  simp only [Bool.true_and, hdw, hat, hin, hword, Bool.or_false]

theorem findTS_digits (ds : List Char) (h : ∀ c ∈ ds, isDigitC c = true) :
    ∀ acc, findTS acc (ds ++ " business days".data) = none := by
  induction ds with
  | nil => intro acc; rfl
  | cons c cs ih =>
    intro acc
    have hsp : pyIsSpace c = false := digit_not_space c (h c (by simp))
    have hts : tsSuffixAt (c :: (cs ++ " business days".data)) = false := by
      simp [tsSuffixAt, hsp]
    show (if tsSuffixAt (c :: (cs ++ " business days".data)) then some acc.reverse
      else findTS (c :: acc) (cs ++ " business days".data)) = none
    rw [hts]
    simp only [Bool.false_eq_true, if_false]
    exact ih (fun x hx => h x (by simp [hx])) (c :: acc)

theorem findTS_inBiz (ds : List Char) (hne : ¬ ds = [])
    (h : ∀ c ∈ ds, isDigitC c = true) :
    findTS [] ("in ".data ++ ds ++ " business days".data) = none := by
  rcases ds with _ | ⟨d0, cs⟩
  · exact absurd rfl hne
  · have hd0 := h d0 (by simp)
    show findTS [] ('i' :: 'n' :: ' ' :: ((d0 :: cs) ++ " business days".data)) = none
    rw [show findTS [] ('i' :: 'n' :: ' ' :: ((d0 :: cs) ++ " business days".data)) =
      findTS ['n', 'i'] (' ' :: ((d0 :: cs) ++ " business days".data)) from rfl]
    rw [show findTS ['n', 'i'] (' ' :: ((d0 :: cs) ++ " business days".data)) =
      (if tsSuffixAt (' ' :: ((d0 :: cs) ++ " business days".data)) then some (['n', 'i'].reverse)
       else findTS (' ' :: 'n' :: 'i' :: []) ((d0 :: cs) ++ " business days".data)) from rfl]
    rw [tsSuffixAt_space_digits d0 cs hd0]
    simp only [Bool.false_eq_true, if_false]
    exact findTS_digits (d0 :: cs) h _

theorem takeWhile_digits (ds : List Char) (h : ∀ c ∈ ds, isDigitC c = true) :
    (ds ++ " business days".data).takeWhile isDigitC = ds ∧
    (ds ++ " business days".data).dropWhile isDigitC = " business days".data := by
  induction ds with
  | nil => exact ⟨rfl, rfl⟩
  | cons c cs ih =>
    have hc := h c (by simp)
    obtain ⟨iht, ihd⟩ := ih (fun x hx => h x (by simp [hx]))
    constructor
    · rw [List.cons_append, List.takeWhile_cons, hc]
      simp [iht]
    · rw [List.cons_append, List.dropWhile_cons, hc]
      simp [ihd]

theorem parse5_sym (ds : List Char) (hne : ¬ ds = []) (h : ∀ c ∈ ds, isDigitC c = true) :
    parse5 ("in ".data ++ ds ++ " business days".data) = some (digitsToNat ds) := by
  rcases ds with _ | ⟨d0, cs⟩
  · exact absurd rfl hne
  · have hd0 := h d0 (by simp)
    have hsp0 : pyIsSpace d0 = false := digit_not_space d0 hd0
    obtain ⟨iht, ihd⟩ := takeWhile_digits (d0 :: cs) h
    have hdw : List.dropWhile pyIsSpace ((d0 :: cs) ++ " business days".data) =
        (d0 :: cs) ++ " business days".data := by
      rw [List.cons_append, List.dropWhile_cons, hsp0]
      rw [← List.cons_append]
      simp
    rw [show parse5 ("in ".data ++ (d0 :: cs) ++ " business days".data) =
      (if (List.takeWhile isDigitC
            (List.dropWhile pyIsSpace ((d0 :: cs) ++ " business days".data))) = [] then none
       else
        match eatWs1 (List.dropWhile isDigitC
            (List.dropWhile pyIsSpace ((d0 :: cs) ++ " business days".data))) with
        | none => none
        | some r4 =>
          if bizAlt r4 then
            some (digitsToNat (List.takeWhile isDigitC
              (List.dropWhile pyIsSpace ((d0 :: cs) ++ " business days".data))))
          else none) from rfl]
    rw [hdw, iht, ihd]
    rw [if_neg (by simp)]
    rfl

/-! ## Lemmas for the year grammars with arbitrary digit strings -/

theorem replaceYear_eq_ok (d : Date) (y : Int) (h1 : 1 ≤ y) (h2 : y ≤ 9999)
    (hv : ValidDate ⟨y, d.month, d.day⟩) :
    replaceYear d y = .ok ⟨y, d.month, d.day⟩ := by
  unfold replaceYear
  rw [if_pos ⟨h1, h2⟩, if_pos hv]

theorem replaceYear_eq_err (d : Date) (y : Int)
    (h : ¬ (1 ≤ y ∧ y ≤ 9999 ∧ ValidDate ⟨y, d.month, d.day⟩)) :
    ∃ m, replaceYear d y = .error m := by
  unfold replaceYear
  by_cases h1 : 1 ≤ y ∧ y ≤ 9999
  · rw [if_pos h1, if_neg (fun hv => h ⟨h1.1, h1.2, hv⟩)]
    exact ⟨_, rfl⟩
  · rw [if_neg h1]
    exact ⟨_, rfl⟩

theorem char_digit_cases (c : Char) (h : isDigitC c = true) :
    c = '0' ∨ c = '1' ∨ c = '2' ∨ c = '3' ∨ c = '4' ∨ c = '5' ∨ c = '6' ∨
      c = '7' ∨ c = '8' ∨ c = '9' := by
  have hb : 48 ≤ c.toNat ∧ c.toNat ≤ 57 := by simpa [isDigitC] using h
  have hofn := Char.ofNat_toNat c
  rcases (by omega : c.toNat = 48 ∨ c.toNat = 49 ∨ c.toNat = 50 ∨ c.toNat = 51 ∨
      c.toNat = 52 ∨ c.toNat = 53 ∨ c.toNat = 54 ∨ c.toNat = 55 ∨ c.toNat = 56 ∨
      c.toNat = 57) with hc|hc|hc|hc|hc|hc|hc|hc|hc|hc
  · exact Or.inl (by rw [← hofn, hc])
  · exact Or.inr (Or.inl (by rw [← hofn, hc]))
  · exact Or.inr (Or.inr (Or.inl (by rw [← hofn, hc])))
  · exact Or.inr (Or.inr (Or.inr (Or.inl (by rw [← hofn, hc]))))
  · exact Or.inr (Or.inr (Or.inr (Or.inr (Or.inl (by rw [← hofn, hc])))))
  · exact Or.inr (Or.inr (Or.inr (Or.inr (Or.inr (Or.inl (by rw [← hofn, hc]))))))
  · exact Or.inr (Or.inr (Or.inr (Or.inr (Or.inr (Or.inr (Or.inl (by rw [← hofn, hc])))))))
  · exact Or.inr (Or.inr (Or.inr (Or.inr (Or.inr (Or.inr (Or.inr (Or.inl (by rw [← hofn, hc]))))))))
  · exact Or.inr (Or.inr (Or.inr (Or.inr (Or.inr (Or.inr (Or.inr (Or.inr (Or.inl (by rw [← hofn, hc])))))))))
  · exact Or.inr (Or.inr (Or.inr (Or.inr (Or.inr (Or.inr (Or.inr (Or.inr (Or.inr (by rw [← hofn, hc])))))))))

theorem fixedMatch_digit (d0 : Char) (hd0 : isDigitC d0 = true) (x : List Char) (t : Date) :
    fixedMatch (d0 :: x) t = none := by
  rcases char_digit_cases d0 hd0 with h|h|h|h|h|h|h|h|h|h <;> subst h <;> rfl

theorem p3_digit (d0 : Char) (hd0 : isDigitC d0 = true) (x : List Char) (t : Date) :
    p3 (d0 :: x) t = none := by
  rcases char_digit_cases d0 hd0 with h|h|h|h|h|h|h|h|h|h <;> subst h <;> rfl

theorem p5_digit (d0 : Char) (hd0 : isDigitC d0 = true) (x : List Char) (t : Date) :
    p5 (d0 :: x) t = none := by
  rcases char_digit_cases d0 hd0 with h|h|h|h|h|h|h|h|h|h <;> subst h <;> rfl

theorem p6_digit (d0 : Char) (hd0 : isDigitC d0 = true) (x : List Char) (t : Date) :
    p6 (d0 :: x) t = .ok none := by
  rcases char_digit_cases d0 hd0 with h|h|h|h|h|h|h|h|h|h <;> subst h <;> rfl

theorem tsSuffixAt_space_digit (d0 : Char) (x : List Char) (hd0 : isDigitC d0 = true) :
    tsSuffixAt (' ' :: d0 :: x) = false := by
  have hsp : pyIsSpace d0 = false := digit_not_space d0 hd0
  have h97 := digit_le57 d0 hd0
  have hna : ¬ d0 = 'a' := by
    intro he
    rw [he] at h97
    exact absurd h97 (by decide)
  have hni : ¬ d0 = 'i' := by
    intro he
    rw [he] at h97
    exact absurd h97 (by decide)
  have hword := tsWordAlt_digit d0 x h97
  have hdw : List.dropWhile pyIsSpace (d0 :: x) = d0 :: x := by
    rw [List.dropWhile_cons, hsp]
    simp
  have hat : tsAt (d0 :: x) = false := by
    unfold tsAt
    rw [show eatLit "at".data (d0 :: x) =
      (if d0 = 'a' then eatLit "t".data x else none) from rfl]
    rw [if_neg hna]
  have hin : tsInThe (d0 :: x) = false := by
    unfold tsInThe
    rw [show eatLit "in".data (d0 :: x) =
      (if d0 = 'i' then eatLit "n".data x else none) from rfl]
    rw [if_neg hni]
  show (pyIsSpace ' ' &&
    (let r2 := List.dropWhile pyIsSpace (d0 :: x)
     tsAt r2 || tsInThe r2 || tsWordAlt r2)) = false
  rw [show pyIsSpace ' ' = true from rfl]
  simp only [Bool.true_and, hdw, hat, hin, hword, Bool.or_false]

theorem findTS_digits_any (tail : List Char) (htail : ∀ acc, findTS acc tail = none)
    (ds : List Char) (h : ∀ c ∈ ds, isDigitC c = true) :
    ∀ acc, findTS acc (ds ++ tail) = none := by
  induction ds with
  | nil => intro acc; exact htail acc
  | cons c cs ih =>
    intro acc
    have hsp : pyIsSpace c = false := digit_not_space c (h c (by simp))
    have hts : tsSuffixAt (c :: (cs ++ tail)) = false := by
      simp [tsSuffixAt, hsp]
    show (if tsSuffixAt (c :: (cs ++ tail)) then some acc.reverse
      else findTS (c :: acc) (cs ++ tail)) = none
    rw [hts]
    simp only [Bool.false_eq_true, if_false]
    exact ih (fun x hx => h x (by simp [hx])) (c :: acc)

theorem findTS_inYears (ds : List Char) (hne : ¬ ds = [])
    (h : ∀ c ∈ ds, isDigitC c = true) :
    findTS [] ("in ".data ++ ds ++ " years".data) = none := by
  rcases ds with _ | ⟨d0, cs⟩
  · exact absurd rfl hne
  · have hd0 := h d0 (by simp)
    have hts : tsSuffixAt (' ' :: ((d0 :: cs) ++ " years".data)) = false :=
      tsSuffixAt_space_digit d0 (cs ++ " years".data) hd0
    show findTS [] ('i' :: 'n' :: ' ' :: ((d0 :: cs) ++ " years".data)) = none
    rw [show findTS [] ('i' :: 'n' :: ' ' :: ((d0 :: cs) ++ " years".data)) =
      (if tsSuffixAt (' ' :: ((d0 :: cs) ++ " years".data)) then some (['n', 'i'].reverse)
       else findTS (' ' :: 'n' :: 'i' :: []) ((d0 :: cs) ++ " years".data)) from rfl]
    rw [hts]
    simp only [Bool.false_eq_true, if_false]
    exact findTS_digits_any " years".data (fun acc => rfl) (d0 :: cs) h _

theorem takeWhile_digits_any (tail : List Char)
    (ht : List.takeWhile isDigitC tail = []) (hd2 : List.dropWhile isDigitC tail = tail)
    (ds : List Char) (h : ∀ c ∈ ds, isDigitC c = true) :
    (ds ++ tail).takeWhile isDigitC = ds ∧ (ds ++ tail).dropWhile isDigitC = tail := by
  induction ds with
  | nil => exact ⟨ht, hd2⟩
  | cons c cs ih =>
    have hc := h c (by simp)
    obtain ⟨iht, ihd⟩ := ih (fun x hx => h x (by simp [hx]))
    constructor
    · rw [List.cons_append, List.takeWhile_cons, hc]
      simp [iht]
    · rw [List.cons_append, List.dropWhile_cons, hc]
      simp [ihd]

theorem dropWhile_space_digit (d0 : Char) (cs tail : List Char) (hd0 : isDigitC d0 = true) :
    List.dropWhile pyIsSpace ((d0 :: cs) ++ tail) = (d0 :: cs) ++ tail := by
  rw [List.cons_append, List.dropWhile_cons, digit_not_space d0 hd0]
  rw [← List.cons_append]
  simp

theorem pyStrip_inYears (ds : List Char) :
    pyStrip ("in ".data ++ ds ++ " years".data) = "in ".data ++ ds ++ " years".data := by
  have hsplit : ("in ".data ++ ds) ++ " years".data =
      (("in ".data ++ ds) ++ " year".data) ++ ['s'] := by
    conv_rhs => rw [List.append_assoc]
    rfl
  rw [hsplit]
  have hshape : (("in ".data ++ ds) ++ " year".data) ++ ['s'] =
      'i' :: ((('n' :: ' ' :: ds) ++ " year".data) ++ ['s']) := rfl
  rw [hshape]
  exact strip_of_ends _ 'i' 's' rfl rfl

theorem pyStrip_yearsFrom (d0 : Char) (cs : List Char) (hd0 : isDigitC d0 = true) :
    pyStrip ((d0 :: cs) ++ " years from now".data) = (d0 :: cs) ++ " years from now".data := by
  have hsplit : (d0 :: cs) ++ " years from now".data =
      ((d0 :: cs) ++ " years from no".data) ++ ['w'] := by
    rw [List.append_assoc]
    rfl
  rw [hsplit]
  have hshape : ((d0 :: cs) ++ " years from no".data) ++ ['w'] =
      d0 :: ((cs ++ " years from no".data) ++ ['w']) := rfl
  rw [hshape]
  exact strip_of_ends _ d0 'w' (digit_not_space d0 hd0) rfl

theorem pyStrip_yearsAgo (d0 : Char) (cs : List Char) (hd0 : isDigitC d0 = true) :
    pyStrip ((d0 :: cs) ++ " years ago".data) = (d0 :: cs) ++ " years ago".data := by
  have hsplit : (d0 :: cs) ++ " years ago".data =
      ((d0 :: cs) ++ " years ag".data) ++ ['o'] := by
    rw [List.append_assoc]
    rfl
  rw [hsplit]
  have hshape : ((d0 :: cs) ++ " years ag".data) ++ ['o'] =
      d0 :: ((cs ++ " years ag".data) ++ ['o']) := rfl
  rw [hshape]
  exact strip_of_ends _ d0 'o' (digit_not_space d0 hd0) rfl

theorem parse6_years (ds : List Char) (hne : ¬ ds = [])
    (h : ∀ c ∈ ds, isDigitC c = true) :
    parse6 ("in ".data ++ ds ++ " years".data) = some (digitsToNat ds, "year".data) := by
  rcases ds with _ | ⟨d0, cs⟩
  · exact absurd rfl hne
  · have hd0 := h d0 (by simp)
    obtain ⟨iht, ihd⟩ := takeWhile_digits_any " years".data rfl rfl (d0 :: cs) h
    have hdw := dropWhile_space_digit d0 cs " years".data hd0
    rw [show parse6 ("in ".data ++ (d0 :: cs) ++ " years".data) =
      (if (List.takeWhile isDigitC
            (List.dropWhile pyIsSpace ((d0 :: cs) ++ " years".data))) = [] then none
       else
        match eatWs1 (List.dropWhile isDigitC
            (List.dropWhile pyIsSpace ((d0 :: cs) ++ " years".data))) with
        | none => none
        | some r4 =>
          if (List.takeWhile isWordC r4) = [] ∨ ¬ (List.dropWhile isWordC r4) = [] then none
          else some (digitsToNat (List.takeWhile isDigitC
            (List.dropWhile pyIsSpace ((d0 :: cs) ++ " years".data))),
            stripS (List.takeWhile isWordC r4))) from rfl]
    rw [hdw, iht, ihd]
    rw [if_neg (by simp)]
    rfl

theorem parse5_inYears (ds : List Char) (hne : ¬ ds = [])
    (h : ∀ c ∈ ds, isDigitC c = true) :
    parse5 ("in ".data ++ ds ++ " years".data) = none := by
  rcases ds with _ | ⟨d0, cs⟩
  · exact absurd rfl hne
  · have hd0 := h d0 (by simp)
    obtain ⟨iht, ihd⟩ := takeWhile_digits_any " years".data rfl rfl (d0 :: cs) h
    have hdw := dropWhile_space_digit d0 cs " years".data hd0
    rw [show parse5 ("in ".data ++ (d0 :: cs) ++ " years".data) =
      (if (List.takeWhile isDigitC
            (List.dropWhile pyIsSpace ((d0 :: cs) ++ " years".data))) = [] then none
       else
        match eatWs1 (List.dropWhile isDigitC
            (List.dropWhile pyIsSpace ((d0 :: cs) ++ " years".data))) with
        | none => none
        | some r4 =>
          if bizAlt r4 then
            some (digitsToNat (List.takeWhile isDigitC
              (List.dropWhile pyIsSpace ((d0 :: cs) ++ " years".data))))
          else none) from rfl]
    rw [hdw, iht, ihd]
    rw [if_neg (by simp)]
    rfl

theorem parse4_years (ds : List Char) (hne : ¬ ds = [])
    (h : ∀ c ∈ ds, isDigitC c = true) :
    parse4 (ds ++ " years from now".data) = some (digitsToNat ds, "year".data) := by
  rcases ds with _ | ⟨d0, cs⟩
  · exact absurd rfl hne
  · have _hd0 := h d0 (by simp)
    obtain ⟨iht, ihd⟩ := takeWhile_digits_any " years from now".data rfl rfl (d0 :: cs) h
    rw [show parse4 ((d0 :: cs) ++ " years from now".data) =
      (if (List.takeWhile isDigitC ((d0 :: cs) ++ " years from now".data)) = [] then none
       else
        match eatWs1 (List.dropWhile isDigitC ((d0 :: cs) ++ " years from now".data)) with
        | none => none
        | some r2 =>
          if (List.takeWhile isWordC r2) = [] then none
          else
            match eatWs1 (List.dropWhile isWordC r2) with
            | none => none
            | some r4 =>
              match eatLit "from".data r4 with
              | none => none
              | some r5 =>
                match eatWs1 r5 with
                | none => none
                | some r6 =>
                  if (eatLit "now".data r6).isSome ∨ (eatLit "today".data r6).isSome then
                    some (digitsToNat (List.takeWhile isDigitC
                        ((d0 :: cs) ++ " years from now".data)),
                      stripS (List.takeWhile isWordC r2))
                  else none) from rfl]
    rw [iht, ihd]
    rw [if_neg (by simp)]
    rfl

theorem parse4_ago_none (ds : List Char) (hne : ¬ ds = [])
    (h : ∀ c ∈ ds, isDigitC c = true) :
    parse4 (ds ++ " years ago".data) = none := by
  rcases ds with _ | ⟨d0, cs⟩
  · exact absurd rfl hne
  · have _hd0 := h d0 (by simp)
    obtain ⟨iht, ihd⟩ := takeWhile_digits_any " years ago".data rfl rfl (d0 :: cs) h
    rw [show parse4 ((d0 :: cs) ++ " years ago".data) =
      (if (List.takeWhile isDigitC ((d0 :: cs) ++ " years ago".data)) = [] then none
       else
        match eatWs1 (List.dropWhile isDigitC ((d0 :: cs) ++ " years ago".data)) with
        | none => none
        | some r2 =>
          if (List.takeWhile isWordC r2) = [] then none
          else
            match eatWs1 (List.dropWhile isWordC r2) with
            | none => none
            | some r4 =>
              match eatLit "from".data r4 with
              | none => none
              | some r5 =>
                match eatWs1 r5 with
                | none => none
                | some r6 =>
                  if (eatLit "now".data r6).isSome ∨ (eatLit "today".data r6).isSome then
                    some (digitsToNat (List.takeWhile isDigitC
                        ((d0 :: cs) ++ " years ago".data)),
                      stripS (List.takeWhile isWordC r2))
                  else none) from rfl]
    rw [iht, ihd]
    rw [if_neg (by simp)]
    rfl

theorem parse7_years (ds : List Char) (hne : ¬ ds = [])
    (h : ∀ c ∈ ds, isDigitC c = true) :
    parse7 (ds ++ " years ago".data) = some (digitsToNat ds, "year".data) := by
  rcases ds with _ | ⟨d0, cs⟩
  · exact absurd rfl hne
  · have _hd0 := h d0 (by simp)
    obtain ⟨iht, ihd⟩ := takeWhile_digits_any " years ago".data rfl rfl (d0 :: cs) h
    rw [show parse7 ((d0 :: cs) ++ " years ago".data) =
      (if (List.takeWhile isDigitC ((d0 :: cs) ++ " years ago".data)) = [] then none
       else
        match eatWs1 (List.dropWhile isDigitC ((d0 :: cs) ++ " years ago".data)) with
        | none => none
        | some r2 =>
          if (List.takeWhile isWordC r2) = [] then none
          else
            match eatWs1 (List.dropWhile isWordC r2) with
            | none => none
            | some r4 =>
              if (eatLit "ago".data r4).isSome then
                some (digitsToNat (List.takeWhile isDigitC
                    ((d0 :: cs) ++ " years ago".data)),
                  stripS (List.takeWhile isWordC r2))
              else none) from rfl]
    rw [iht, ihd]
    rw [if_neg (by simp)]
    rfl

/-- Claim C7: `_add_months` adds exactly the requested number of months in
the linear month index, stays a valid date, preserves the day-of-month
unless the target month is shorter (then it clamps to the last valid day),
and maps Jan 31 plus one month to Feb 28 or Feb 29 by leap year. -/
theorem addMonths_clamp :
    (∀ (d : Date), ValidDate d → ∀ n : Int,
      ValidDate (addMonths d n) ∧
      (addMonths d n).year * 12 + ((addMonths d n).month : Int) =
        d.year * 12 + (d.month : Int) + n ∧
      (addMonths d n).day =
        (if d.day ≤ monthLen (addMonths d n).year (addMonths d n).month then d.day
         else monthLen (addMonths d n).year (addMonths d n).month)) ∧
    addMonths ⟨2025, 1, 31⟩ 1 = ⟨2025, 2, 28⟩ ∧
    addMonths ⟨2024, 1, 31⟩ 1 = ⟨2024, 2, 29⟩ := by
  refine ⟨?_, by decide, by decide⟩
  intro d hd n
  obtain ⟨h1, h2, h3, h4⟩ := hd
  have hmod0 : 0 ≤ ((d.month : Int) - 1 + n) % 12 := Int.emod_nonneg _ (by norm_num)
  have hmod1 : ((d.month : Int) - 1 + n) % 12 < 12 := Int.emod_lt_of_pos _ (by norm_num)
  have hm : addMonths d n = ⟨d.year + ((d.month : Int) - 1 + n) / 12,
      (((d.month : Int) - 1 + n) % 12 + 1).toNat,
      min d.day (monthLen (d.year + ((d.month : Int) - 1 + n) / 12)
        ((((d.month : Int) - 1 + n) % 12 + 1).toNat))⟩ := rfl
  rw [hm]
  dsimp only
  have hpos := monthLen_pos (d.year + ((d.month : Int) - 1 + n) / 12)
    ((((d.month : Int) - 1 + n) % 12 + 1).toNat) (by omega) (by omega)
  refine ⟨?_, by omega, ?_⟩
  · rw [validDate_mk]
    exact ⟨by omega, by omega, by omega, min_le_right _ _⟩
  · rw [Nat.min_def]

/-- Witness for C7 at a plain input. -/
theorem addMonths_clamp_w :
    ValidDate (addMonths ⟨2026, 1, 15⟩ 2) ∧
    (addMonths ⟨2026, 1, 15⟩ 2).year * 12 + ((addMonths ⟨2026, 1, 15⟩ 2).month : Int) =
      (2026 : Int) * 12 + 1 + 2 := by
  have h := addMonths_clamp.1 ⟨2026, 1, 15⟩ (by decide) 2
  exact ⟨h.1, h.2.1⟩

/-- Claim C1, counterexample: resolving "in 1 year" at the Feb 29 reference
2024-02-29 raises an uncaught `ValueError` out of `resolve` instead of
returning a value. -/
theorem inOneYear_feb29_raises :
    resolve "in 1 year" ⟨2024, 2, 29⟩ =
      .error "ValueError: day is out of range for month" := rfl

/-- "in N years" resolves through the bare `replace` call of line 210:
it returns the replaced date when `replace` succeeds and propagates the
`ValueError` when it raises. -/
theorem resolveInYears (ds : List Char) (hne : ¬ ds = [])
    (h : ∀ c ∈ ds, isDigitC c = true) (ref : Date) :
    (∀ d, replaceYear ref (ref.year + (digitsToNat ds : Int)) = .ok d →
      resolve ("in " ++ String.mk ds ++ " years") ref =
        .ok (.result (buildResult d s!"in {digitsToNat ds} year(s)"
          ("in " ++ String.mk ds ++ " years") false ref))) ∧
    (∀ m, replaceYear ref (ref.year + (digitsToNat ds : Int)) = .error m →
      resolve ("in " ++ String.mk ds ++ " years") ref = .error m) := by
  rcases ds with _ | ⟨d0, cs⟩
  · exact absurd rfl hne
  · have hdata : ("in " ++ String.mk (d0 :: cs) ++ " years").data =
        "in ".data ++ (d0 :: cs) ++ " years".data := by
      rw [String.data_append, String.data_append]
    have hlow : pyLower ("in ".data ++ (d0 :: cs) ++ " years".data) =
        "in ".data ++ (d0 :: cs) ++ " years".data := by
      rw [pyLower_append, pyLower_append, pyLower_digits (d0 :: cs) h]
      rw [show pyLower "in ".data = "in ".data from rfl,
        show pyLower " years".data = " years".data from rfl]
    have hnorm : stripTime (pyStrip (pyLower ("in " ++ String.mk (d0 :: cs) ++ " years").data)) =
        ("in ".data ++ (d0 :: cs) ++ " years".data, false) := by
      rw [hdata, hlow, pyStrip_inYears (d0 :: cs)]
      unfold stripTime
      rw [findTS_inYears (d0 :: cs) (by simp) h]
    have hp5 : p5 ("in ".data ++ (d0 :: cs) ++ " years".data) ref = none := by
      unfold p5
      rw [parse5_inYears (d0 :: cs) (by simp) h]
    have h6eq : p6 ("in ".data ++ (d0 :: cs) ++ " years".data) ref =
        (match replaceYear ref (ref.year + (digitsToNat (d0 :: cs) : Int)) with
         | Except.ok d => Except.ok (some (d, s!"in {digitsToNat (d0 :: cs)} year(s)"))
         | Except.error m => Except.error m) := by
      unfold p6
      rw [parse6_years (d0 :: cs) (by simp) h]
      rfl
    constructor
    · intro d hrep
      have h6ok : p6 ("in ".data ++ (d0 :: cs) ++ " years".data) ref =
          .ok (some (d, s!"in {digitsToNat (d0 :: cs)} year(s)")) := by
        rw [h6eq, hrep]
      have hch := runChain_p6some ("in ".data ++ (d0 :: cs) ++ " years".data) ref _
        rfl rfl rfl hp5 h6ok
      have hch2 : runChain
          (stripTime (pyStrip (pyLower ("in " ++ String.mk (d0 :: cs) ++ " years").data))).1 ref =
          .ok (some (d, s!"in {digitsToNat (d0 :: cs)} year(s)")) := by
        rw [hnorm]
        exact hch
      have hres := resolve_of_chain _ _ _ _ hch2
      rw [hnorm] at hres
      exact hres
    · intro m hrep
      have h6err : p6 ("in ".data ++ (d0 :: cs) ++ " years".data) ref = .error m := by
        rw [h6eq, hrep]
      have hch := runChain_p6err ("in ".data ++ (d0 :: cs) ++ " years".data) ref m
        rfl rfl rfl hp5 h6err
      have hch2 : runChain
          (stripTime (pyStrip (pyLower ("in " ++ String.mk (d0 :: cs) ++ " years").data))).1 ref =
          .error m := by
        rw [hnorm]
        exact hch
      exact resolve_of_chain_err _ _ _ hch2

/-- "N years from now" resolves through the bare `replace` call of line
177: result on success, propagated `ValueError` on failure. -/
theorem resolveYearsFrom (ds : List Char) (hne : ¬ ds = [])
    (h : ∀ c ∈ ds, isDigitC c = true) (ref : Date) :
    (∀ d, replaceYear ref (ref.year + (digitsToNat ds : Int)) = .ok d →
      resolve (String.mk ds ++ " years from now") ref =
        .ok (.result (buildResult d s!"{digitsToNat ds} year(s) from now"
          (String.mk ds ++ " years from now") false ref))) ∧
    (∀ m, replaceYear ref (ref.year + (digitsToNat ds : Int)) = .error m →
      resolve (String.mk ds ++ " years from now") ref = .error m) := by
  rcases ds with _ | ⟨d0, cs⟩
  · exact absurd rfl hne
  · have hd0 := h d0 (by simp)
    have hdata : (String.mk (d0 :: cs) ++ " years from now").data =
        (d0 :: cs) ++ " years from now".data := by
      rw [String.data_append]
    have hlow : pyLower ((d0 :: cs) ++ " years from now".data) =
        (d0 :: cs) ++ " years from now".data := by
      rw [pyLower_append, pyLower_digits (d0 :: cs) h,
        show pyLower " years from now".data = " years from now".data from rfl]
    have hnorm : stripTime (pyStrip (pyLower (String.mk (d0 :: cs) ++ " years from now").data)) =
        ((d0 :: cs) ++ " years from now".data, false) := by
      rw [hdata, hlow, pyStrip_yearsFrom d0 cs hd0]
      unfold stripTime
      rw [show findTS [] ((d0 :: cs) ++ " years from now".data) = none from
        findTS_digits_any " years from now".data (fun acc => rfl) (d0 :: cs) h []]
    have h0 : fixedMatch ((d0 :: cs) ++ " years from now".data) ref = none :=
      fixedMatch_digit d0 hd0 (cs ++ " years from now".data) ref
    have h3 : p3 ((d0 :: cs) ++ " years from now".data) ref = none :=
      p3_digit d0 hd0 (cs ++ " years from now".data) ref
    have h4eq : p4 ((d0 :: cs) ++ " years from now".data) ref =
        (match replaceYear ref (ref.year + (digitsToNat (d0 :: cs) : Int)) with
         | Except.ok d => Except.ok (some (d, s!"{digitsToNat (d0 :: cs)} year(s) from now"))
         | Except.error m => Except.error m) := by
      unfold p4
      rw [parse4_years (d0 :: cs) (by simp) h]
      rfl
    constructor
    · intro d hrep
      have h4ok : p4 ((d0 :: cs) ++ " years from now".data) ref =
          .ok (some (d, s!"{digitsToNat (d0 :: cs)} year(s) from now")) := by
        rw [h4eq, hrep]
      have hch := runChain_p4some _ ref _ h0 h3 h4ok
      have hch2 : runChain
          (stripTime (pyStrip (pyLower
            (String.mk (d0 :: cs) ++ " years from now").data))).1 ref =
          .ok (some (d, s!"{digitsToNat (d0 :: cs)} year(s) from now")) := by
        rw [hnorm]
        exact hch
      have hres := resolve_of_chain _ _ _ _ hch2
      rw [hnorm] at hres
      exact hres
    · intro m hrep
      have h4err : p4 ((d0 :: cs) ++ " years from now".data) ref = .error m := by
        rw [h4eq, hrep]
      have hch := runChain_p4err _ ref m h0 h3 h4err
      have hch2 : runChain
          (stripTime (pyStrip (pyLower
            (String.mk (d0 :: cs) ++ " years from now").data))).1 ref = .error m := by
        rw [hnorm]
        exact hch
      exact resolve_of_chain_err _ _ _ hch2

/-- "N years ago" resolves through the bare `replace` call of line 229:
result on success, propagated `ValueError` on failure. -/
theorem resolveYearsAgo (ds : List Char) (hne : ¬ ds = [])
    (h : ∀ c ∈ ds, isDigitC c = true) (ref : Date) :
    (∀ d, replaceYear ref (ref.year - (digitsToNat ds : Int)) = .ok d →
      resolve (String.mk ds ++ " years ago") ref =
        .ok (.result (buildResult d s!"{digitsToNat ds} year(s) ago"
          (String.mk ds ++ " years ago") false ref))) ∧
    (∀ m, replaceYear ref (ref.year - (digitsToNat ds : Int)) = .error m →
      resolve (String.mk ds ++ " years ago") ref = .error m) := by
  rcases ds with _ | ⟨d0, cs⟩
  · exact absurd rfl hne
  · have hd0 := h d0 (by simp)
    have hdata : (String.mk (d0 :: cs) ++ " years ago").data =
        (d0 :: cs) ++ " years ago".data := by
      rw [String.data_append]
    have hlow : pyLower ((d0 :: cs) ++ " years ago".data) =
        (d0 :: cs) ++ " years ago".data := by
      rw [pyLower_append, pyLower_digits (d0 :: cs) h,
        show pyLower " years ago".data = " years ago".data from rfl]
    have hnorm : stripTime (pyStrip (pyLower (String.mk (d0 :: cs) ++ " years ago").data)) =
        ((d0 :: cs) ++ " years ago".data, false) := by
      rw [hdata, hlow, pyStrip_yearsAgo d0 cs hd0]
      unfold stripTime
      rw [show findTS [] ((d0 :: cs) ++ " years ago".data) = none from
        findTS_digits_any " years ago".data (fun acc => rfl) (d0 :: cs) h []]
    have h0 : fixedMatch ((d0 :: cs) ++ " years ago".data) ref = none :=
      fixedMatch_digit d0 hd0 (cs ++ " years ago".data) ref
    have h3 : p3 ((d0 :: cs) ++ " years ago".data) ref = none :=
      p3_digit d0 hd0 (cs ++ " years ago".data) ref
    have h4 : p4 ((d0 :: cs) ++ " years ago".data) ref = .ok none := by
      unfold p4
      rw [parse4_ago_none (d0 :: cs) (by simp) h]
    have h5 : p5 ((d0 :: cs) ++ " years ago".data) ref = none :=
      p5_digit d0 hd0 (cs ++ " years ago".data) ref
    have h6 : p6 ((d0 :: cs) ++ " years ago".data) ref = .ok none :=
      p6_digit d0 hd0 (cs ++ " years ago".data) ref
    have h7eq : p7 ((d0 :: cs) ++ " years ago".data) ref =
        (match replaceYear ref (ref.year - (digitsToNat (d0 :: cs) : Int)) with
         | Except.ok d => Except.ok (some (d, s!"{digitsToNat (d0 :: cs)} year(s) ago"))
         | Except.error m => Except.error m) := by
      unfold p7
      rw [parse7_years (d0 :: cs) (by simp) h]
      rfl
    constructor
    · intro d hrep
      have h7ok : p7 ((d0 :: cs) ++ " years ago".data) ref =
          .ok (some (d, s!"{digitsToNat (d0 :: cs)} year(s) ago")) := by
        rw [h7eq, hrep]
      have hch := runChain_p7some _ ref _ h0 h3 h4 h5 h6 h7ok
      have hch2 : runChain
          (stripTime (pyStrip (pyLower (String.mk (d0 :: cs) ++ " years ago").data))).1 ref =
          .ok (some (d, s!"{digitsToNat (d0 :: cs)} year(s) ago")) := by
        rw [hnorm]
        exact hch
      have hres := resolve_of_chain _ _ _ _ hch2
      rw [hnorm] at hres
      exact hres
    · intro m hrep
      have h7err : p7 ((d0 :: cs) ++ " years ago".data) ref = .error m := by
        rw [h7eq, hrep]
      have hch := runChain_p7err _ ref m h0 h3 h4 h5 h6 h7err
      have hch2 : runChain
          (stripTime (pyStrip (pyLower (String.mk (d0 :: cs) ++ " years ago").data))).1 ref =
          .error m := by
        rw [hnorm]
        exact hch
      exact resolve_of_chain_err _ _ _ hch2

/-- "a year from now" resolves through the bare `replace` call of line
244: result on success, propagated `ValueError` on failure. -/
theorem resolveAYearFrom (ref : Date) :
    (∀ d, replaceYear ref (ref.year + 1) = .ok d →
      resolve "a year from now" ref =
        .ok (.result (buildResult d "a year from now" "a year from now" false ref))) ∧
    (∀ m, replaceYear ref (ref.year + 1) = .error m →
      resolve "a year from now" ref = .error m) := by
  have h8eq : p8 "a year from now".data ref =
      (match replaceYear ref (ref.year + 1) with
       | Except.ok d => Except.ok (some (d, "a year from now"))
       | Except.error m => Except.error m) := rfl
  constructor
  · intro d hrep
    have h8ok : p8 "a year from now".data ref = .ok (some (d, "a year from now")) := by
      rw [h8eq, hrep]
    exact resolve_of_chain _ _ _ _
      (runChain_p8some "a year from now".data ref _ rfl rfl rfl rfl rfl rfl h8ok)
  · intro m hrep
    have h8err : p8 "a year from now".data ref = .error m := by
      rw [h8eq, hrep]
    exact resolve_of_chain_err _ _ _
      (runChain_p8err "a year from now".data ref m rfl rfl rfl rfl rfl rfl h8err)

/-- Claim C1 (amended): for every digit string N, the year-arithmetic
grammars ("in N years", "N years from now", "N years ago", "a year from
now") return their result as a value whenever the target year lies in
1..9999 and the reference month and day remain valid there; otherwise the
bare `replace(year=...)` raises an uncaught `ValueError` across the
boundary (target year out of the `datetime` range, or a Feb 29 reference
whose target year is non-leap — the only way the day check can fail). -/
theorem yearArith_value_or_feb29 (ds : List Char) (hne : ¬ ds = [])
    (hdg : ∀ c ∈ ds, isDigitC c = true) (ref : Date) (href : ValidDate ref) :
    (1 ≤ ref.year + (digitsToNat ds : Int) ∧ ref.year + (digitsToNat ds : Int) ≤ 9999 ∧
        ValidDate ⟨ref.year + (digitsToNat ds : Int), ref.month, ref.day⟩ →
      resolve ("in " ++ String.mk ds ++ " years") ref =
        .ok (.result (buildResult ⟨ref.year + (digitsToNat ds : Int), ref.month, ref.day⟩
          s!"in {digitsToNat ds} year(s)" ("in " ++ String.mk ds ++ " years") false ref)) ∧
      resolve (String.mk ds ++ " years from now") ref =
        .ok (.result (buildResult ⟨ref.year + (digitsToNat ds : Int), ref.month, ref.day⟩
          s!"{digitsToNat ds} year(s) from now" (String.mk ds ++ " years from now")
          false ref))) ∧
    (¬ (1 ≤ ref.year + (digitsToNat ds : Int) ∧ ref.year + (digitsToNat ds : Int) ≤ 9999 ∧
        ValidDate ⟨ref.year + (digitsToNat ds : Int), ref.month, ref.day⟩) →
      ∃ m, resolve ("in " ++ String.mk ds ++ " years") ref = .error m ∧
        resolve (String.mk ds ++ " years from now") ref = .error m) ∧
    (1 ≤ ref.year - (digitsToNat ds : Int) ∧ ref.year - (digitsToNat ds : Int) ≤ 9999 ∧
        ValidDate ⟨ref.year - (digitsToNat ds : Int), ref.month, ref.day⟩ →
      resolve (String.mk ds ++ " years ago") ref =
        .ok (.result (buildResult ⟨ref.year - (digitsToNat ds : Int), ref.month, ref.day⟩
          s!"{digitsToNat ds} year(s) ago" (String.mk ds ++ " years ago") false ref))) ∧
    (¬ (1 ≤ ref.year - (digitsToNat ds : Int) ∧ ref.year - (digitsToNat ds : Int) ≤ 9999 ∧
        ValidDate ⟨ref.year - (digitsToNat ds : Int), ref.month, ref.day⟩) →
      ∃ m, resolve (String.mk ds ++ " years ago") ref = .error m) ∧
    (1 ≤ ref.year + 1 ∧ ref.year + 1 ≤ 9999 ∧
        ValidDate ⟨ref.year + 1, ref.month, ref.day⟩ →
      resolve "a year from now" ref =
        .ok (.result (buildResult ⟨ref.year + 1, ref.month, ref.day⟩
          "a year from now" "a year from now" false ref))) ∧
    (¬ (1 ≤ ref.year + 1 ∧ ref.year + 1 ≤ 9999 ∧
        ValidDate ⟨ref.year + 1, ref.month, ref.day⟩) →
      ∃ m, resolve "a year from now" ref = .error m) ∧
    (∀ y : Int, (¬ ValidDate ⟨y, ref.month, ref.day⟩) ↔
      (ref.month = 2 ∧ ref.day = 29 ∧ isLeap y = false)) := by
  have hIn := resolveInYears ds hne hdg ref
  have hFrom := resolveYearsFrom ds hne hdg ref
  have hAgo := resolveYearsAgo ds hne hdg ref
  have hA := resolveAYearFrom ref
  refine ⟨?_, ?_, ?_, ?_, ?_, ?_, fun y => valid_replace_year_iff ref href y⟩
  · intro hcond
    have hrep := replaceYear_eq_ok ref (ref.year + (digitsToNat ds : Int))
      hcond.1 hcond.2.1 hcond.2.2
    exact ⟨hIn.1 _ hrep, hFrom.1 _ hrep⟩
  · intro hcond
    obtain ⟨m, hm⟩ := replaceYear_eq_err ref (ref.year + (digitsToNat ds : Int)) hcond
    exact ⟨m, hIn.2 m hm, hFrom.2 m hm⟩
  · intro hcond
    have hrep := replaceYear_eq_ok ref (ref.year - (digitsToNat ds : Int))
      hcond.1 hcond.2.1 hcond.2.2
    exact hAgo.1 _ hrep
  · intro hcond
    obtain ⟨m, hm⟩ := replaceYear_eq_err ref (ref.year - (digitsToNat ds : Int)) hcond
    exact ⟨m, hAgo.2 m hm⟩
  · intro hcond
    have hrep := replaceYear_eq_ok ref (ref.year + 1) hcond.1 hcond.2.1 hcond.2.2
    exact hA.1 _ hrep
  · intro hcond
    obtain ⟨m, hm⟩ := replaceYear_eq_err ref (ref.year + 1) hcond
    exact ⟨m, hA.2 m hm⟩

/-- The digit string of the C1 witness. -/
def twoDigits : List Char := ['2']

/-- Witness for C1 (amended) with the digit string "2" at the plain
reference 2026-05-10 (targets 2028 and 2024, both in range and valid). -/
theorem yearArith_value_or_feb29_w :
    resolve ("in " ++ String.mk twoDigits ++ " years") ⟨2026, 5, 10⟩ =
      .ok (.result (buildResult ⟨2026 + (digitsToNat twoDigits : Int), 5, 10⟩
        s!"in {digitsToNat twoDigits} year(s)" ("in " ++ String.mk twoDigits ++ " years")
        false ⟨2026, 5, 10⟩)) ∧
    resolve (String.mk twoDigits ++ " years ago") ⟨2026, 5, 10⟩ =
      .ok (.result (buildResult ⟨2026 - (digitsToNat twoDigits : Int), 5, 10⟩
        s!"{digitsToNat twoDigits} year(s) ago" (String.mk twoDigits ++ " years ago")
        false ⟨2026, 5, 10⟩)) := by
  have h := yearArith_value_or_feb29 twoDigits (by decide) (by decide) ⟨2026, 5, 10⟩ (by decide)
  exact ⟨(h.1 ⟨by decide, by decide, by decide⟩).1,
    h.2.2.1 ⟨by decide, by decide, by decide⟩⟩

/-- The two `datetime(...)` constructions of the month/day grammars, when
no year was written: default to the reference year, and roll one year
forward exactly when the candidate has already passed. -/
theorem monthDaySem_noYear (w : List Char) (mth day : Nat) (today : Date)
    (hv : ValidDate ⟨today.year, mth, day⟩)
    (hv2 : ValidDate ⟨today.year + 1, mth, day⟩) :
    monthDaySem w mth day none today =
      if dateLt ⟨today.year, mth, day⟩ today then
        some (⟨today.year + 1, mth, day⟩, s!"{titleWord w} {day}, {today.year + 1}")
      else some (⟨today.year, mth, day⟩, s!"{titleWord w} {day}, {today.year}") := by
  have hmk1 : mkDate today.year mth day = some ⟨today.year, mth, day⟩ := by
    unfold mkDate
    rw [if_pos hv]
  have hmk2 : mkDate (today.year + 1) mth day = some ⟨today.year + 1, mth, day⟩ := by
    unfold mkDate
    rw [if_pos hv2]
  unfold monthDaySem
  simp only [hmk1, hmk2, eq_self_iff_true, true_and]

/-- Claim C8: with the year omitted, the month/day grammar defaults to the
reference year and rolls one year forward exactly when that date has
already passed; in particular "march 15" at reference 2026-04-01 resolves
to 2027-03-15. -/
theorem monthDay_year_rollforward :
    (∀ ref : Date, ∃ r, resolve "march 15" ref = .ok (.result r) ∧
      r.date = (if dateLt ⟨ref.year, 3, 15⟩ ref then (⟨ref.year + 1, 3, 15⟩ : Date)
        else ⟨ref.year, 3, 15⟩)) ∧
    resolve "march 15" ⟨2026, 4, 1⟩ =
      .ok (.result (buildResult ⟨2027, 3, 15⟩ "March 15, 2027" "march 15" false ⟨2026, 4, 1⟩)) := by
  refine ⟨?_, rfl⟩
  intro ref
  have hv : ValidDate ⟨ref.year, 3, 15⟩ :=
    ⟨by norm_num, by norm_num, by norm_num, (by norm_num : (15 : Nat) ≤ 31)⟩
  have hv2 : ValidDate ⟨ref.year + 1, 3, 15⟩ :=
    ⟨by norm_num, by norm_num, by norm_num, (by norm_num : (15 : Nat) ≤ 31)⟩
  have h11 : p11a "march 15".data ref = monthDaySem "march".data 3 15 none ref := rfl
  rw [monthDaySem_noYear "march".data 3 15 ref hv hv2] at h11
  by_cases hlt : dateLt ⟨ref.year, 3, 15⟩ ref
  · rw [if_pos hlt] at h11
    refine ⟨_, resolve_of_chain _ _ _ _
      (runChain_p11a "march 15".data ref _ rfl rfl rfl rfl rfl rfl rfl rfl rfl h11), ?_⟩
    rw [if_pos hlt]
    rfl
  · rw [if_neg hlt] at h11
    refine ⟨_, resolve_of_chain _ _ _ _
      (runChain_p11a "march 15".data ref _ rfl rfl rfl rfl rfl rfl rfl rfl rfl h11), ?_⟩
    rw [if_neg hlt]
    rfl

/-- Witness for C8 at the scenario reference 2026-04-01. -/
theorem monthDay_year_rollforward_w :
    ∃ r, resolve "march 15" ⟨2026, 4, 1⟩ = .ok (.result r) ∧
      r.date = (if dateLt ⟨2026, 3, 15⟩ ⟨2026, 4, 1⟩ then (⟨2027, 3, 15⟩ : Date)
        else ⟨2026, 3, 15⟩) :=
  monthDay_year_rollforward.1 ⟨2026, 4, 1⟩

/-- Claim C6: for every digit string N and reference date, "in N business
days" resolves through the business-day stepper: each counted step moves to
the first Monday-Friday day strictly after the previous one (every skipped
day is a weekend day), the reference day itself is never counted, and from
a Friday reference five business days land exactly seven days later, on the
following Friday. -/
theorem business_days_stepping (ds : List Char) (hne : ¬ ds = [])
    (h : ∀ c ∈ ds, isDigitC c = true) (ref : Date) (href : ValidDate ref) :
    resolve ("in " ++ String.mk ds ++ " business days") ref =
      .ok (.result (buildResult (busAdd ref (digitsToNat ds))
        s!"in {digitsToNat ds} business day(s)"
        ("in " ++ String.mk ds ++ " business days") false ref)) ∧
    (∀ n : Nat, busAdd ref (n + 1) = nextBiz (busAdd ref n)) ∧
    (∀ d : Date, ValidDate d →
      toOrdinal d < toOrdinal (nextBiz d) ∧ weekday (nextBiz d) < 5 ∧
      ∀ j : Int, toOrdinal d < j → j < toOrdinal (nextBiz d) → 5 ≤ (j + 6) % 7) ∧
    (1 ≤ digitsToNat ds →
      weekday (busAdd ref (digitsToNat ds)) < 5 ∧
      toOrdinal ref < toOrdinal (busAdd ref (digitsToNat ds))) ∧
    (weekday ref = 4 → busAdd ref 5 = addDays ref 7) := by
  refine ⟨?_, fun n => busAdd_succ n ref,
    fun d hd => ⟨(nextBiz_spec d hd).2.1, (nextBiz_spec d hd).2.2.1, (nextBiz_spec d hd).2.2.2⟩,
    fun h1 => (busAdd_spec ref href (digitsToNat ds)).2.2 h1,
    busAdd_friday ref href⟩
  have hdata : ("in " ++ String.mk ds ++ " business days").data =
      "in ".data ++ ds ++ " business days".data := by
    rw [String.data_append, String.data_append]
  have hlow : pyLower ("in ".data ++ ds ++ " business days".data) =
      "in ".data ++ ds ++ " business days".data := by
    rw [pyLower_append, pyLower_append, pyLower_digits ds h]
    rw [show pyLower "in ".data = "in ".data from rfl,
      show pyLower " business days".data = " business days".data from rfl]
  have hnorm : stripTime (pyStrip (pyLower ("in " ++ String.mk ds ++ " business days").data)) =
      ("in ".data ++ ds ++ " business days".data, false) := by
    rw [hdata, hlow, pyStrip_inBiz ds]
    unfold stripTime
    rw [findTS_inBiz ds hne h]
  have h5 : p5 ("in ".data ++ ds ++ " business days".data) ref =
      some (busAdd ref (digitsToNat ds), s!"in {digitsToNat ds} business day(s)") := by
    unfold p5
    rw [parse5_sym ds hne h]
  have hchain : runChain ("in ".data ++ ds ++ " business days".data) ref =
      .ok (some (busAdd ref (digitsToNat ds), s!"in {digitsToNat ds} business day(s)")) := by
    rcases ds with _ | ⟨d0, cs⟩
    · exact absurd rfl hne
    · exact runChain_p5 _ ref _ rfl rfl rfl h5
  have hch2 : runChain
      (stripTime (pyStrip (pyLower ("in " ++ String.mk ds ++ " business days").data))).1 ref =
      .ok (some (busAdd ref (digitsToNat ds), s!"in {digitsToNat ds} business day(s)")) := by
    rw [hnorm]
    exact hchain
  have hres := resolve_of_chain _ _ _ _ hch2
  rw [hnorm] at hres
  exact hres

/-- The digit string of the C6 witness. -/
def fiveDigits : List Char := ['5']

/-- Witness for C6 with the digit string "5" at the Friday reference
2026-02-06. -/
theorem business_days_stepping_w :
    resolve ("in " ++ String.mk fiveDigits ++ " business days") ⟨2026, 2, 6⟩ =
      .ok (.result (buildResult (busAdd ⟨2026, 2, 6⟩ (digitsToNat fiveDigits))
        s!"in {digitsToNat fiveDigits} business day(s)"
        ("in " ++ String.mk fiveDigits ++ " business days") false ⟨2026, 2, 6⟩)) ∧
    busAdd ⟨2026, 2, 6⟩ 5 = addDays ⟨2026, 2, 6⟩ 7 := by
  have h := business_days_stepping fiveDigits (by decide) (by decide) ⟨2026, 2, 6⟩ (by decide)
  exact ⟨h.1, h.2.2.2.2 (by decide)⟩

end Dates
